import Mathlib

/-!
Verification development for the Liberty content server's heuristic
audit / redesign pipeline (TypeScript sources: content-generator.ts with the
ContentAuditor, content-redesigner.ts, and the BrandVoiceEngine).

JS strings are modelled as lists of characters.  JS number arithmetic on the
values appearing here is integer arithmetic (modelled with Int) except for the
average / ratio comparisons, which are modelled with exact rational arithmetic;
a JS division n/0 yields NaN (n = 0) or +Infinity (n > 0), and the dedicated
comparison helpers below reproduce the IEEE comparison behaviour of those two
special values.  Math.round x is modelled as floor (x + 1/2) over exact
rationals, which is the rounding JS Math.round performs.
-/

namespace Liberty

/-- Characters of a JS string. -/
abbrev Str := List Char

/-- ASCII lower-casing of one character: the effect of JS toLowerCase on the
ASCII range (all marker phrases in the source are ASCII). -/
def lowerChar (c : Char) : Char :=
  if 'A' ≤ c ∧ c ≤ 'Z' then Char.ofNat (c.toNat + 32) else c

/-- JS String.prototype.toLowerCase. -/
def lowerStr (s : Str) : Str := s.map lowerChar

/-- JS regex class \s (the ASCII whitespace characters). -/
def isWs (c : Char) : Bool :=
  c = ' ' || c = '\t' || c = '\n' || c = '\r' || c = '\x0b' || c = '\x0c'

/-- JS regex class \d. -/
def isDigitC (c : Char) : Bool := decide ('0' ≤ c) && decide (c ≤ '9')

/-- Tail-recursive list length (JS s.length); lenAux_eq relates it to
List.length. -/
def lenAux (acc : ℕ) : Str → ℕ
  | [] => acc
  | _ :: cs => lenAux (acc + 1) cs

/-- Does the text (first argument) start with the pattern (second argument)? -/
def startsWithL : Str → Str → Bool
  | _, [] => true
  | [], _ :: _ => false
  | c :: cs, p :: ps => c = p && startsWithL cs ps

/-- JS text.includes(pat): pat occurs contiguously in the text.  The pattern
is the first argument, the text the second. -/
def subIn (pat : Str) : Str → Bool
  | [] => pat.isEmpty
  | c :: cs => startsWithL (c :: cs) pat || subIn pat cs

/-- Terms of the list whose lower-case form occurs in cl (a lower-cased text):
models terms.filter(term => contentLower.includes(term)). -/
def matchedCI (cl : Str) (terms : List String) : List String :=
  terms.filter (fun t => subIn t.data cl)

/-- Number of list terms occurring in cl. -/
def countCI (cl : Str) (terms : List String) : ℕ := (matchedCI cl terms).length

/-- Structural recursion form of the single-character split, used for
reasoning; splitOnChar_eq identifies it with the accumulator form below. -/
def splitOnCharRec (sep : Char) : Str → List Str
  | [] => [[]]
  | c :: cs =>
    match splitOnCharRec sep cs with
    | [] => [[]]
    | p :: ps => if c = sep then [] :: p :: ps else (c :: p) :: ps

/-- Accumulator loop of the single-character split (tail-recursive so large
texts evaluate by kernel reduction): cur holds the reversed current piece,
acc the reversed finished pieces. -/
def splitOnCharAux (sep : Char) : Str → List Str → Str → List Str
  | cur, acc, [] => (cur.reverse :: acc).reverse
  | cur, acc, c :: cs =>
    if c = sep then splitOnCharAux sep [] (cur.reverse :: acc) cs
    else splitOnCharAux sep (c :: cur) acc cs

/-- JS content.split(sep) for a single-character separator. -/
def splitOnChar (sep : Char) (s : Str) : List Str := splitOnCharAux sep [] [] s

/-- JS content.split(sep) for the two-character separator of two newlines,
written here without a string literal to keep the splitting explicit. -/
def splitOnNl2 : Str → List Str
  | [] => [[]]
  | '\n' :: '\n' :: cs => [] :: splitOnNl2 cs
  | c :: cs =>
    match splitOnNl2 cs with
    | [] => [[]]
    | p :: ps => (c :: p) :: ps

/-- JS String.prototype.trim (strips \s characters at both ends). -/
def trimWs (s : Str) : Str :=
  ((s.dropWhile (fun c => isWs c)).reverse.dropWhile (fun c => isWs c)).reverse

/-- Counts maximal runs of characters satisfying p; the Bool argument records
whether the previous character was inside a run. -/
def countRunsAux (p : Char → Bool) : Bool → Str → ℕ
  | _, [] => 0
  | inRun, c :: cs =>
    if p c then (if inRun then countRunsAux p true cs else countRunsAux p true cs + 1)
    else countRunsAux p false cs

/-- JS content.split(/\s+/).filter(w => w.length > 0).length: the number of
maximal non-whitespace runs. -/
def wordCount (s : Str) : ℕ := countRunsAux (fun c => !isWs c) false s

/-- Presence of a match of /\d{4}/: four consecutive digit characters. -/
def hasRun4 : Str → Bool
  | a :: b :: c :: d :: rest =>
    (isDigitC a && isDigitC b && isDigitC c && isDigitC d) || hasRun4 (b :: c :: d :: rest)
  | _ => false

/-- Presence of a match of /\d+%/: a digit immediately followed by a percent
sign (equivalent to the one-or-more form for mere presence). -/
def hasPct : Str → Bool
  | a :: b :: rest => (isDigitC a && b = '%') || hasPct (b :: rest)
  | _ => false

/-- JS comparison num/den > cn/cd (the bound is the rational cn/cd with
cd > 0), decided by cross-multiplication; division by a zero den reproduces
NaN (0/0: every comparison false) and +Infinity (num/0 with num > 0: greater
than any finite bound). -/
def divGT (num den cn cd : ℕ) : Bool :=
  if den = 0 then decide (num ≠ 0) else decide (cn * den < cd * num)

/-- JS comparison num/den < cn/cd (NaN: false; +Infinity: false). -/
def divLT (num den cn cd : ℕ) : Bool :=
  if den = 0 then false else decide (cd * num < cn * den)

/-- JS comparison num/den >= cn/cd (NaN: false; +Infinity: true). -/
def divGE (num den cn cd : ℕ) : Bool :=
  if den = 0 then decide (num ≠ 0) else decide (cn * den ≤ cd * num)

/-- JS comparison num/den <= cn/cd (NaN: false; +Infinity: false). -/
def divLE (num den cn cd : ℕ) : Bool :=
  if den = 0 then false else decide (cd * num ≤ cn * den)

/-- Math.min(100, Math.max(0, x)). -/
def clamp (x : ℤ) : ℤ := min 100 (max 0 x)

/-- Math.round on an exact rational: floor (q + 1/2), the rounding JS
Math.round performs.  Used in specification-side statements. -/
def roundQ (q : ℚ) : ℤ := ⌊q + 1/2⌋

/-- Math.round (n / d) computed over the integers: floor ((2n + d) / (2d)).
The analyzers use this computable form; roundRat_eq identifies it with
roundQ. -/
def roundRat (n : ℤ) (d : ℕ) : ℤ := (2 * n + d) / ((2 * d : ℕ) : ℤ)

/-! Lexicon tables of ContentAuditor (content-generator.ts).  Each list keeps
the source's order.  Local constants sharing a name across scorers are given
a scorer-specific name here. -/

def authoritativeTerms : List String :=
  ["data shows", "research indicates", "historical", "evidence", "studies show",
   "according to", "analysis reveals", "experts", "decades of", "proven",
   "statistics", "federal reserve", "treasury", "economic data", "market data"]

def unsubstantiatedClaims : List String :=
  ["everyone knows", "obviously", "clearly", "without a doubt",
   "definitely will", "guaranteed to", "always works"]

def transparentTerms : List String :=
  ["risk", "consider", "factors", "important to understand",
   "no guarantee", "past performance", "potential downsides",
   "consult", "evaluate", "assess your situation"]

def trustBuildingTerms : List String :=
  ["our process", "we believe", "our approach", "transparency",
   "honest", "straightforward", "clear about"]

def secretiveTerms : List String :=
  ["secret", "exclusive insider", "hidden opportunity",
   "banks don't want you to know", "wall street hates this"]

def professionalTerms : List String :=
  ["portfolio", "allocation", "diversification", "investment strategy",
   "wealth preservation", "financial planning", "asset class",
   "market conditions", "economic factors"]

def casualTerms : List String :=
  ["awesome", "amazing", "incredible", "unbelievable", "crazy",
   "insane", "wild", "epic", "mind-blowing", "game-changer"]

def protectiveTerms : List String :=
  ["protect", "preserve", "safeguard", "hedge against",
   "shield from", "defense against", "security", "stability",
   "wealth preservation", "protection from inflation"]

def protectivenessEducationalTerms : List String :=
  ["understand", "learn", "consider", "evaluate", "analyze",
   "factors", "important to know", "key points", "things to consider"]

def protectivenessSalesTerms : List String :=
  ["buy now", "purchase", "order", "call today", "don't wait",
   "limited time", "act fast", "special offer", "discount"]

def youngTerms : List String :=
  ["yo", "bro", "dude", "lit", "fire", "sick", "bet", "cap",
   "no cap", "fr", "periodt", "slaps", "hits different"]

def appropriateRefs : List String :=
  ["retirement", "estate planning", "legacy", "grandchildren",
   "fixed income", "social security", "pension", "401k", "ira"]

def conservativeTerms : List String :=
  ["stability", "security", "preservation", "steady", "reliable",
   "time-tested", "established", "proven track record", "conservative approach"]

def riskAverseTerms : List String :=
  ["careful consideration", "prudent", "cautious", "measured approach",
   "due diligence", "thoroughly evaluate"]

def jargonTerms : List String :=
  ["derivative", "quantitative easing", "basis points", "contango",
   "backwardation", "volatility surface", "correlation coefficient"]

def progressionTerms : List String :=
  ["first", "second", "next", "then", "finally", "to begin",
   "let's start", "to understand", "consider this", "for example"]

def reinforcementTerms : List String :=
  ["remember", "key point", "important", "takeaway",
   "in summary", "to recap", "this means"]

def disclaimerTerms : List String :=
  ["not investment advice", "not financial advice", "consult",
   "educational purposes", "past performance", "no guarantee"]

def riskTerms : List String :=
  ["risk", "may lose", "no guarantee", "past performance",
   "market volatility", "fluctuate", "consider your situation"]

def complianceEducationalTerms : List String :=
  ["understand", "learn", "education", "knowledge", "inform",
   "consider", "evaluate", "factors", "important to know"]

def pressureTerms : List String :=
  ["act now", "don't wait", "last chance", "limited spots",
   "only today", "expires soon", "while supplies last",
   "don't miss out", "you must", "you should"]

def urgencyTerms : List String :=
  ["urgent", "immediately", "right now", "today only",
   "hurry", "fast", "quick", "instant", "emergency"]

def aggressiveAuditTerms : List String :=
  ["guaranteed returns", "risk-free", "can't lose", "sure thing",
   "explosive growth", "get rich", "fortune", "wealth beyond"]

def trustRatioTerms : List String :=
  ["trust", "reliable", "honest", "transparent", "education",
   "understand", "learn", "consider", "evaluate"]

def pushRatioTerms : List String :=
  ["buy", "purchase", "order", "call now", "get", "grab",
   "don't miss", "act now", "limited time"]

/-! Dimension scorers (ContentAuditor).  Each mirrors the corresponding
private method; the per-if additions are summed in source order. -/

/-- JS content.split('.').filter(s => s.trim().length > 0): the untrimmed
period-separated pieces whose trimmed form is non-empty. -/
def sentences (content : Str) : List Str :=
  (splitOnChar '.' content).filter (fun p => !(trimWs p).isEmpty)

/-- JS content.split('\n\n').filter(p => p.trim().length > 0). -/
def paragraphsOf (content : Str) : List Str :=
  (splitOnNl2 content).filter (fun p => !(trimWs p).isEmpty)

/-- ContentAuditor.scoreAuthoritativeness. -/
def scoreAuthoritativeness (content : Str) : ℤ :=
  let cl := lowerStr content
  clamp (50 + (countCI cl authoritativeTerms : ℤ) * 8
    + (if subIn ("source:").data cl || subIn ("according to").data cl then 10 else 0)
    + (if hasRun4 content then 5 else 0)
    + (if hasPct content then 10 else 0)
    - (countCI cl unsubstantiatedClaims : ℤ) * 15)

/-- ContentAuditor.scoreTrustworthiness. -/
def scoreTrustworthiness (content : Str) : ℤ :=
  let cl := lowerStr content
  clamp (50 + (countCI cl transparentTerms : ℤ) * 12
    + (if subIn ("not investment advice").data cl then 15 else 0)
    + (if subIn ("consult").data cl && subIn ("professional").data cl then 10 else 0)
    + (countCI cl trustBuildingTerms : ℤ) * 8
    - (countCI cl secretiveTerms : ℤ) * 20)

/-- ContentAuditor.scoreProfessionalism.  The average sentence length is the
sum of the untrimmed piece lengths over the number of pieces. -/
def scoreProfessionalism (content : Str) : ℤ :=
  let cl := lowerStr content
  let sents := sentences content
  let sumLen := (sents.map List.length).sum
  let n := sents.length
  clamp (70 + (countCI cl professionalTerms : ℤ) * 5
    - (countCI cl casualTerms : ℤ) * 15
    + (if divGT sumLen n 30 1 && divLT sumLen n 80 1 then 10 else 0)
    - (if divGT sumLen n 100 1 then 10 else 0))

/-- ContentAuditor.scoreProtectiveness. -/
def scoreProtectiveness (content : Str) : ℤ :=
  let cl := lowerStr content
  let eduCount := countCI cl protectivenessEducationalTerms
  let salesCount := countCI cl protectivenessSalesTerms
  clamp (50 + (countCI cl protectiveTerms : ℤ) * 10
    + (if decide (eduCount > salesCount * 2) then 15 else 0)
    - (if decide (salesCount > eduCount) then 20 else 0))

/-- ContentAuditor.scoreAgeAppropriateness. -/
def scoreAgeAppropriateness (content : Str) : ℤ :=
  let cl := lowerStr content
  clamp (70 - (countCI cl youngTerms : ℤ) * 25 + (countCI cl appropriateRefs : ℤ) * 8)

/-- ContentAuditor.scoreToneMatch. -/
def scoreToneMatch (content : Str) : ℤ :=
  let cl := lowerStr content
  clamp (60 + (countCI cl conservativeTerms : ℤ) * 10 + (countCI cl riskAverseTerms : ℤ) * 8)

/-- ContentAuditor.scoreComplexityLevel.  avgWordsPerSentence is the word
count over the sentence count; the if / else-if chain of the source is kept. -/
def scoreComplexityLevel (content : Str) : ℤ :=
  let cl := lowerStr content
  let n := (sentences content).length
  let w := wordCount content
  clamp (50 +
    (if divGE w n 15 1 && divLE w n 25 1 then 20
     else if divLT w n 10 1 then -15
     else if divGT w n 30 1 then -20 else 0)
    - (if decide (countCI cl jargonTerms > 3) then 15 else 0))

/-- ContentAuditor.scoreInformationHierarchy.  The hash, bullet, dash and
asterisk checks are case-sensitive on the raw content, as in the source. -/
def scoreInformationHierarchy (content : Str) : ℤ :=
  let paras := paragraphsOf content
  let firstPara := paras.headD []
  clamp (50
    + (if subIn ("#").data content || subIn ("##").data content then 15 else 0)
    + (if subIn ("•").data content || subIn ("-").data content || subIn ("*").data content
       then 10 else 0)
    + (if decide (paras.length ≥ 3) then 10 else 0)
    + (if decide (firstPara.length > 50) && decide (firstPara.length < 200) then 10 else 0))

/-- ContentAuditor.scoreReadability. -/
def scoreReadability (content : Str) : ℤ :=
  let sents := sentences content
  let sumLen := (sents.map List.length).sum
  let n := sents.length
  let paras := paragraphsOf content
  let sumPara := (paras.map List.length).sum
  let wsCount := (content.filter (fun c => isWs c)).length
  clamp (60
    + (if divGT sumLen n 50 1 && divLT sumLen n 120 1 then 15 else 0)
    + (if divLT sumPara paras.length 500 1 then 10 else 0)
    + (if divGT wsCount content.length 3 20 && divLT wsCount content.length 1 4
       then 10 else 0))

/-- ContentAuditor.scoreEducationalFlow. -/
def scoreEducationalFlow (content : Str) : ℤ :=
  let cl := lowerStr content
  clamp (50 + (countCI cl progressionTerms : ℤ) * 8 + (countCI cl reinforcementTerms : ℤ) * 10)

/-- ContentAuditor.checkDisclaimers. -/
def checkDisclaimers (content : Str) : Bool :=
  disclaimerTerms.any (fun t => subIn t.data (lowerStr content))

/-- ContentAuditor.checkRiskDisclosures. -/
def checkRiskDisclosures (content : Str) : Bool :=
  decide (countCI (lowerStr content) riskTerms ≥ 2)

/-- ContentAuditor.checkEducationalFraming. -/
def checkEducationalFraming (content : Str) : Bool :=
  decide (countCI (lowerStr content) complianceEducationalTerms ≥ 3)

/-! Analyzer result records, mirroring the detailed_analysis shape of the
ContentAudit interface. -/

structure BrandVoiceAnalysis where
  score : ℤ
  knowledgeable_authoritative : ℤ
  trustworthy_transparent : ℤ
  professional_established : ℤ
  protective_strategic : ℤ
  issues : List String
deriving Repr, DecidableEq

structure AudienceAnalysis where
  score : ℤ
  age_appropriate : ℤ
  tone_match : ℤ
  complexity_level : ℤ
  issues : List String
deriving Repr, DecidableEq

structure StructureAnalysis where
  score : ℤ
  information_hierarchy : ℤ
  readability : ℤ
  educational_flow : ℤ
  issues : List String
deriving Repr, DecidableEq

structure ComplianceAnalysis where
  score : ℤ
  disclaimers_present : Bool
  risk_disclosures : Bool
  educational_framing : Bool
  issues : List String
deriving Repr, DecidableEq

structure SalesTacticsAnalysis where
  score : ℤ
  pressure_tactics : List String
  urgency_language : List String
  aggressive_terms : List String
  trust_vs_push : ℚ
deriving Repr, DecidableEq

inductive CStatus where
  | PASSED
  | NEEDS_IMPROVEMENT
  | FAILED
deriving Repr, DecidableEq

inductive RPriority where
  | LOW
  | MEDIUM
  | HIGH
  | CRITICAL
deriving Repr, DecidableEq

structure Recommendations where
  immediate_fixes : List String
  structural_changes : List String
  voice_adjustments : List String
  compliance_additions : List String
deriving Repr, DecidableEq

/-- The ContentAudit result; the TS detailed_analysis wrapper object is
flattened into the five analysis fields. -/
structure ContentAudit where
  overall_score : ℤ
  compliance_status : CStatus
  brand_voice : BrandVoiceAnalysis
  audience_alignment : AudienceAnalysis
  content_structure : StructureAnalysis
  compliance_requirements : ComplianceAnalysis
  sales_tactics : SalesTacticsAnalysis
  recommendations : Recommendations
  redesign_priority : RPriority
deriving Repr, DecidableEq

/-- ContentAuditor.analyzeBrandVoice. -/
def analyzeBrandVoice (content : Str) : BrandVoiceAnalysis :=
  let a := scoreAuthoritativeness content
  let t := scoreTrustworthiness content
  let p := scoreProfessionalism content
  let pr := scoreProtectiveness content
  { score := roundRat (a + t + p + pr) 4
    knowledgeable_authoritative := a
    trustworthy_transparent := t
    professional_established := p
    protective_strategic := pr
    issues :=
      (if decide (a < 70) then ["Lacks authoritative evidence and data"] else [])
      ++ (if decide (t < 70) then ["Needs more transparency about risks and processes"] else [])
      ++ (if decide (p < 70) then ["Language too casual or trendy for target demographic"] else [])
      ++ (if decide (pr < 70) then ["Too sales-focused, not protective enough"] else []) }

/-- ContentAuditor.analyzeAudienceAlignment. -/
def analyzeAudienceAlignment (content : Str) : AudienceAnalysis :=
  let ag := scoreAgeAppropriateness content
  let tn := scoreToneMatch content
  let cx := scoreComplexityLevel content
  { score := roundRat (ag + tn + cx) 3
    age_appropriate := ag
    tone_match := tn
    complexity_level := cx
    issues :=
      (if decide (ag < 70) then ["Language not appropriate for 45-75 demographic"] else [])
      ++ (if decide (tn < 70) then ["Tone doesn't match conservative investor preferences"] else [])
      ++ (if decide (cx < 70) then ["Content complexity not optimal for audience"] else []) }

/-- ContentAuditor.analyzeContentStructure. -/
def analyzeContentStructure (content : Str) : StructureAnalysis :=
  let h := scoreInformationHierarchy content
  let r := scoreReadability content
  let e := scoreEducationalFlow content
  { score := roundRat (h + r + e) 3
    information_hierarchy := h
    readability := r
    educational_flow := e
    issues :=
      (if decide (h < 70) then ["Poor information hierarchy - needs better structure"] else [])
      ++ (if decide (r < 70) then ["Readability issues - too dense or poorly formatted"] else [])
      ++ (if decide (e < 70) then ["Doesn't follow educational progression"] else []) }

/-- ContentAuditor.analyzeCompliance.  The score is capped above at 100 only;
its additions keep it at least the base of 50. -/
def analyzeCompliance (content : Str) : ComplianceAnalysis :=
  let d := checkDisclaimers content
  let r := checkRiskDisclosures content
  let e := checkEducationalFraming content
  { score := min 100 (50 + (if d then 25 else 0) + (if r then 20 else 0) + (if e then 25 else 0))
    disclaimers_present := d
    risk_disclosures := r
    educational_framing := e
    issues :=
      (if d then [] else ["Missing required financial disclaimers"])
      ++ (if r then [] else if decide (content.length > 500)
          then ["Needs risk disclosure statements"] else [])
      ++ (if e then [] else ["Content not properly framed as educational"]) }

/-- ContentAuditor.findPressureTactics. -/
def findPressureTactics (content : Str) : List String :=
  matchedCI (lowerStr content) pressureTerms

/-- ContentAuditor.findUrgencyLanguage. -/
def findUrgencyLanguage (content : Str) : List String :=
  matchedCI (lowerStr content) urgencyTerms

/-- ContentAuditor.findAggressiveTerms. -/
def findAggressiveTerms (content : Str) : List String :=
  matchedCI (lowerStr content) aggressiveAuditTerms

/-- ContentAuditor.calculateTrustVsPushRatio: trustCount / pushCount, and the
trust count itself when the push count is zero. -/
def calculateTrustVsPushRatio (content : Str) : ℚ :=
  let cl := lowerStr content
  let trustCount := countCI cl trustRatioTerms
  let pushCount := countCI cl pushRatioTerms
  if pushCount = 0 then (trustCount : ℚ) else Rat.divInt (trustCount : ℤ) (pushCount : ℤ)

/-- ContentAuditor.analyzeSalesTactics. -/
def analyzeSalesTactics (content : Str) : SalesTacticsAnalysis :=
  let p := findPressureTactics content
  let u := findUrgencyLanguage content
  let a := findAggressiveTerms content
  let r := calculateTrustVsPushRatio content
  { score := max 0 (80 - (p.length : ℤ) * 15 - (u.length : ℤ) * 10 - (a.length : ℤ) * 12
      - (if decide (r < 1) then 20 else 0))
    pressure_tactics := p
    urgency_language := u
    aggressive_terms := a
    trust_vs_push := r }

/-! IEEE-754 double arithmetic on the dyadic rationals reached by the
weighted score sum.  Every value the JS engine manipulates here is m / 2^k
exactly; each multiplication and addition computes the exact result and
rounds it to 53 significant bits, to nearest, ties to even.  Overflow and
subnormals are not modelled: they are unreachable for weighted sums of
scores in [0, 100]. -/

/-- Fuel-driven binary digit count (fuel of at least the number always
suffices, each step halving). -/
def bitLenAux : ℕ → ℕ → ℕ
  | 0, _ => 0
  | fuel + 1, n => if n = 0 then 0 else bitLenAux fuel (n / 2) + 1

/-- Number of binary digits of n. -/
def bitLen (n : ℕ) : ℕ := bitLenAux n n

/-- Round n / 2^s to the nearest natural number, ties to even. -/
def rheNat (n s : ℕ) : ℕ :=
  if s = 0 then n
  else
    let q := n / 2 ^ s
    let r := n % 2 ^ s
    if r < 2 ^ (s - 1) then q
    else if 2 ^ (s - 1) < r then q + 1
    else if q % 2 = 0 then q else q + 1

/-- A dyadic rational m / 2^k: the exact value of an IEEE-754 double in the
range the audit reaches. -/
structure Dy where
  m : ℤ
  k : ℕ
deriving Repr, DecidableEq

/-- The exact rational value of a dyadic. -/
def dyVal (d : Dy) : ℚ := (d.m : ℚ) / 2 ^ d.k

/-- IEEE-754 rounding of a dyadic to 53 significant bits: round to nearest,
ties to even, applied to the magnitude. -/
def flDy (d : Dy) : Dy :=
  let a := d.m.natAbs
  let L := bitLen a
  if L ≤ 53 then d
  else ⟨d.m.sign * ((rheNat a (L - 53) * 2 ^ (L - 53) : ℕ) : ℤ), d.k⟩

/-- IEEE double multiplication: exact product, then rounding. -/
def dyMul (a b : Dy) : Dy := flDy ⟨a.m * b.m, a.k + b.k⟩

/-- IEEE double addition: exact sum, then rounding. -/
def dyAdd (a b : Dy) : Dy :=
  if a.k ≤ b.k then flDy ⟨a.m * 2 ^ (b.k - a.k) + b.m, b.k⟩
  else flDy ⟨a.m + b.m * 2 ^ (a.k - b.k), a.k⟩

/-- The double denoted by the literal 0.3: 5404319552844595 / 2^54. -/
def w03 : Dy := ⟨5404319552844595, 54⟩

/-- The double denoted by the literal 0.2: 3602879701896397 / 2^54. -/
def w02 : Dy := ⟨3602879701896397, 54⟩

/-- The double denoted by the literal 0.15: 5404319552844595 / 2^55. -/
def w015 : Dy := ⟨5404319552844595, 55⟩

/-- The double denoted by the literal 0.25, which is exact. -/
def w025 : Dy := ⟨1, 2⟩

/-- The double denoted by the literal 0.1: 3602879701896397 / 2^55. -/
def w01 : Dy := ⟨3602879701896397, 55⟩

/-- The double value of bv*0.3 + au*0.2 + st*0.15 + co*0.25 + sa*0.1,
evaluated left to right in IEEE-754 double arithmetic as the JS engine
does (integer scores below 2^53 are exact doubles). -/
def jsWeightedSum (bv au st co sa : ℤ) : Dy :=
  dyAdd (dyAdd (dyAdd (dyAdd (dyMul ⟨bv, 0⟩ w03) (dyMul ⟨au, 0⟩ w02))
    (dyMul ⟨st, 0⟩ w015)) (dyMul ⟨co, 0⟩ w025)) (dyMul ⟨sa, 0⟩ w01)

/-- Math.round on a double value: the closest integer, the larger at ties —
the mathematical floor of the double's value plus one half. -/
def jsRound (d : Dy) : ℤ := roundRat d.m (2 ^ d.k)

/-- ContentAuditor.calculateOverallScore: Math.round applied to the
IEEE-double weighted sum with weights 0.30 / 0.20 / 0.15 / 0.25 / 0.10.
The double rounding can differ by one from exact-rational half-up rounding
at ties: at sub-scores (75, 47, 63, 75, 24) the exact sum is 62.5 but the
double sum falls just below, so Math.round returns 62, not 63. -/
def calculateOverallScore (bv au st co sa : ℤ) : ℤ :=
  jsRound (jsWeightedSum bv au st co sa)

/-- ContentAuditor.determineComplianceStatus. -/
def determineComplianceStatus (score : ℤ) : CStatus :=
  if score ≥ 80 then .PASSED
  else if score ≥ 60 then .NEEDS_IMPROVEMENT
  else .FAILED

/-- ContentAuditor.determineRedesignPriority. -/
def determineRedesignPriority (score : ℤ) (comp : ComplianceAnalysis) : RPriority :=
  if score < 40 then .CRITICAL
  else if score < 60 then .HIGH
  else if score < 75 || !comp.disclaimers_present then .MEDIUM
  else .LOW

/-- ContentAuditor.generateRecommendations. -/
def generateRecommendations (bv : BrandVoiceAnalysis) (st : StructureAnalysis)
    (co : ComplianceAnalysis) (sa : SalesTacticsAnalysis) : Recommendations :=
  { immediate_fixes :=
      (if decide (sa.pressure_tactics.length > 0)
       then ["Remove pressure tactics and urgency language"] else [])
      ++ (if decide (sa.trust_vs_push < 1)
          then ["Increase educational content relative to sales messaging"] else [])
    structural_changes :=
      (if decide (st.information_hierarchy < 70)
       then ["Improve content structure with headers and logical flow"] else [])
      ++ (if decide (st.readability < 70)
          then ["Break up dense text with bullet points and shorter paragraphs"] else [])
    voice_adjustments :=
      (if decide (bv.knowledgeable_authoritative < 70)
       then ["Add more data, historical context, and authoritative sources"] else [])
      ++ (if decide (bv.trustworthy_transparent < 70)
          then ["Include more transparency about risks and processes"] else [])
      ++ (if decide (bv.protective_strategic < 70)
          then ["Shift from sales-focused to protective, educational tone"] else [])
    compliance_additions :=
      (if co.disclaimers_present then [] else ["Add required financial disclaimers"])
      ++ (if co.risk_disclosures then [] else ["Include risk disclosure statements"])
      ++ (if co.educational_framing then []
          else ["Reframe content as educational rather than promotional"]) }

/-- ContentAuditor.auditContent.  The optional contentType parameter is unused
by the source and omitted. -/
def auditContent (content : String) : ContentAudit :=
  let c := content.data
  let bv := analyzeBrandVoice c
  let au := analyzeAudienceAlignment c
  let st := analyzeContentStructure c
  let co := analyzeCompliance c
  let sa := analyzeSalesTactics c
  let overall := calculateOverallScore bv.score au.score st.score co.score sa.score
  { overall_score := overall
    compliance_status := determineComplianceStatus overall
    brand_voice := bv
    audience_alignment := au
    content_structure := st
    compliance_requirements := co
    sales_tactics := sa
    recommendations := generateRecommendations bv st co sa
    redesign_priority := determineRedesignPriority overall co }

/-! Spec-side restatements used by the functional-correctness claims. -/

/-- Overall score recomputed from the five dimension scores with the spec's
weights: brand-voice x0.30, audience x0.20, structure x0.15, compliance x0.25,
sales-tactics x0.10, rounded to the nearest integer. -/
def specOverallScore (A : ContentAudit) : ℤ :=
  roundQ ((A.brand_voice.score : ℚ) * (3/10) + (A.audience_alignment.score : ℚ) * (1/5)
    + (A.content_structure.score : ℚ) * (3/20)
    + (A.compliance_requirements.score : ℚ) * (1/4)
    + (A.sales_tactics.score : ℚ) * (1/10))

/-- Compliance status thresholds stated by the spec. -/
def specStatusOf (overall : ℤ) : CStatus :=
  if 80 ≤ overall then .PASSED
  else if 60 ≤ overall then .NEEDS_IMPROVEMENT
  else .FAILED

/-- Redesign priority rules stated by the spec. -/
def specPriorityOf (overall : ℤ) (disclaimersPresent : Bool) : RPriority :=
  if overall < 40 then .CRITICAL
  else if overall < 60 then .HIGH
  else if overall < 75 ∨ disclaimersPresent = false then .MEDIUM
  else .LOW

/-! BrandVoiceEngine (framework/brand-voice.ts). -/

structure PersonaGuidance where
  persona : String
  messaging_focus : String
  pain_points : List String
  value_propositions : List String
  tone_adjustments : String
deriving Repr, DecidableEq

def securitySeekersGuidance : PersonaGuidance :=
  { persona := "Security Seekers"
    messaging_focus := "Stability, wealth preservation, protection from economic uncertainty"
    pain_points :=
      ["Fear of market volatility", "Concern about currency devaluation",
       "Distrust of traditional financial institutions", "Worry about retirement security"]
    value_propositions :=
      ["Hedge against inflation", "Store of value with historical track record",
       "Portfolio diversification away from paper assets", "Tangible wealth you can hold"]
    tone_adjustments :=
      "Emphasize stability, safety, and historical precedent. Use data and evidence to build confidence." }

def growthHuntersGuidance : PersonaGuidance :=
  { persona := "Growth Hunters"
    messaging_focus := "Portfolio enhancement, diversification opportunities, strategic wealth building"
    pain_points :=
      ["Over-concentration in traditional investments", "Limited diversification options",
       "Concern about market correlations", "Seeking uncorrelated assets"]
    value_propositions :=
      ["Portfolio diversification benefits", "Potential for appreciation during economic stress",
       "Uncorrelated to traditional markets", "Strategic allocation for balanced portfolio"]
    tone_adjustments :=
      "Focus on strategic benefits and portfolio optimization. Emphasize smart allocation principles." }

def legacyBuildersGuidance : PersonaGuidance :=
  { persona := "Legacy Builders"
    messaging_focus := "Generational wealth, estate planning, long-term preservation"
    pain_points :=
      ["Wealth transfer concerns", "Estate tax implications",
       "Long-term value preservation", "Intergenerational planning challenges"]
    value_propositions :=
      ["Generational wealth preservation", "Tangible assets for inheritance",
       "Estate planning benefits", "Long-term store of value"]
    tone_adjustments :=
      "Emphasize legacy, permanence, and multi-generational thinking. Use historical examples." }

def crisisReactorsGuidance : PersonaGuidance :=
  { persona := "Crisis Reactors"
    messaging_focus := "Economic protection, immediate security, crisis hedging"
    pain_points :=
      ["Economic uncertainty and instability", "Inflation concerns",
       "Geopolitical risks", "Currency devaluation fears"]
    value_propositions :=
      ["Crisis hedge and safe haven", "Protection against economic turmoil",
       "Maintains value during uncertainty", "Independent of government and banking systems"]
    tone_adjustments :=
      "Address immediate concerns while maintaining educational approach. Focus on practical protection benefits." }

/-- What a JS bracket lookup on the guidance object can produce: one of the
four own guidance entries, or a member inherited from Object.prototype
(recorded by its name; the value is a built-in function, or the prototype
object itself for the proto accessor — truthy either way). -/
inductive GuidanceResult where
  | entry : PersonaGuidance → GuidanceResult
  | inherited : String → GuidanceResult
deriving Repr, DecidableEq

/-- The own property names of Object.prototype: a string bracket lookup on a
plain object literal reaches these through the prototype chain, and each
yields a truthy value. -/
def objectPrototypeKeys : List String :=
  ["constructor", "hasOwnProperty", "isPrototypeOf", "propertyIsEnumerable",
   "toLocaleString", "toString", "valueOf",
   "__defineGetter__", "__defineSetter__", "__lookupGetter__", "__lookupSetter__",
   "__proto__"]

/-- BrandVoiceEngine.getPersonaGuidance:
guidanceMap[persona] || guidanceMap.security_seekers.  The bracket lookup
consults the prototype chain: for a key naming an Object.prototype member the
lookup returns that inherited truthy value, the || fallback is not taken, and
the caller receives a non-guidance object; only keys missing from both the
map and the prototype fall back to the security_seekers entry. -/
def getPersonaGuidance (persona : String) : GuidanceResult :=
  if persona = "security_seekers" then .entry securitySeekersGuidance
  else if persona = "growth_hunters" then .entry growthHuntersGuidance
  else if persona = "legacy_builders" then .entry legacyBuildersGuidance
  else if persona = "crisis_reactors" then .entry crisisReactorsGuidance
  else if persona ∈ objectPrototypeKeys then .inherited persona
  else .entry securitySeekersGuidance

/-- The .persona field as JS reads it off a lookup result: present on a
guidance entry, undefined (never equal to any string) on an inherited
prototype member. -/
def guidancePersona : GuidanceResult → Option String
  | .entry g => some g.persona
  | .inherited _ => none

def vbcAggressiveTerms : List String :=
  ["act now", "limited time", "urgent", "must buy", "don't miss out",
   "guaranteed returns", "risk-free", "get rich", "explosive growth"]

def vbcEducationalTerms : List String :=
  ["understand", "learn", "historical", "data shows", "research indicates",
   "consider", "evaluate", "analyze", "factors to consider"]

def vbcDisclaimerKeywords : List String :=
  ["not investment advice", "past performance", "consult", "specialist"]

structure ValidationResult where
  score : ℤ
  issues : List String
  disclaimers_included : Bool
deriving Repr, DecidableEq

/-- The validateBrandCompliance deductions before its final age-language
check: 100, minus 15 for each aggressive term found, minus 10 when fewer than
three educational terms occur, minus 20 when no disclaimer keyword occurs and
the content is longer than 500 characters (the source applies these with
sequential score -= statements). -/
def vbcScorePreAge (content : String) : ℤ :=
  let cl := lowerStr content.data
  100 - 15 * (countCI cl vbcAggressiveTerms : ℤ)
    - (if decide (countCI cl vbcEducationalTerms < 3) then 10 else 0)
    - (if !(vbcDisclaimerKeywords.any (fun k => subIn k.data cl))
         && decide (content.data.length > 500) then 20 else 0)

/-- BrandVoiceEngine.validateBrandCompliance.  The age-language check tests
the raw (not lower-cased) content for the substrings yo / bro / lit, with a
single 15-point deduction; the floor at 0 is applied at the end. -/
def validateBrandCompliance (content : String) : ValidationResult :=
  let c := content.data
  let cl := lowerStr c
  let disc := vbcDisclaimerKeywords.any (fun k => subIn k.data cl)
  let ageFlag := subIn ("yo").data c || subIn ("bro").data c || subIn ("lit").data c
  { score := max 0 (vbcScorePreAge content - (if ageFlag then 15 else 0))
    issues :=
      (matchedCI cl vbcAggressiveTerms).map
        (fun t => "Contains aggressive sales language: \"" ++ t ++ "\"")
      ++ (if decide (countCI cl vbcEducationalTerms < 3)
          then ["Insufficient educational language - needs more informative tone"] else [])
      ++ (if !disc && decide (c.length > 500)
          then ["Missing required financial disclaimers"] else [])
      ++ (if ageFlag
          then ["Language not appropriate for target demographic (45-75)"] else [])
    disclaimers_included := disc }

/-! Regex-replacement machinery.  A JS replace(re, repl) with the g flag scans
left to right for the leftmost match, replaces it and resumes after the
matched text.  A Matcher returns, for a given suffix of the text, every way
the pattern can match a prefix of that suffix, in the backtracking priority
order of the JS engine (greedy quantifiers longest first, alternations in
listed order); the scan keeps only the first. -/

/-- Case-insensitive prefix test (ASCII case folding, as the i flag). -/
def startsWithCI : Str → Str → Bool
  | _, [] => true
  | [], _ :: _ => false
  | c :: cs, p :: ps => lowerChar c = lowerChar p && startsWithCI cs ps

/-- Prefix test, case-sensitive or not. -/
def swMatch (ci : Bool) (s w : Str) : Bool :=
  if ci then startsWithCI s w else startsWithL s w

/-- One way a pattern can match a prefix: the number of characters consumed
and the numbered capture groups collected so far. -/
structure MRes where
  used : ℕ
  caps : List (ℕ × Str)
deriving Repr

/-- All prefix matches of a pattern at the head of a suffix, in backtracking
priority order. -/
abbrev Matcher := Str → List MRes

/-- A literal word (the ci flag selects ASCII case-insensitive comparison). -/
def mLit (ci : Bool) (w : Str) : Matcher := fun s =>
  if swMatch ci s w then [⟨w.length, []⟩] else []

/-- An alternation of literal words, tried in listed order. -/
def mAlt (ci : Bool) (ws : List Str) : Matcher := fun s =>
  ws.flatMap (fun w => mLit ci w s)

/-- Sequential composition. -/
def mSeq (a b : Matcher) : Matcher := fun s =>
  (a s).flatMap (fun r =>
    (b (s.drop r.used)).map (fun r2 => ⟨r.used + r2.used, r.caps ++ r2.caps⟩))

/-- A greedy one-or-more character class (cls+): consumes between the maximal
run length and 1 characters, longest first. -/
def mPlusCls (p : Char → Bool) : Matcher := fun s =>
  let run := (s.takeWhile p).length
  (List.range run).map (fun i => ⟨run - i, []⟩)

/-- A greedy zero-or-more character class (cls*). -/
def mStarCls (p : Char → Bool) : Matcher := fun s =>
  let run := (s.takeWhile p).length
  (List.range (run + 1)).map (fun i => ⟨run - i, []⟩)

/-- A numbered capture group around a pattern: records the consumed text. -/
def mGroup (n : ℕ) (m : Matcher) : Matcher := fun s =>
  (m s).map (fun r => ⟨r.used, r.caps ++ [(n, s.take r.used)]⟩)

/-- The text captured by group n (empty when the group is absent). -/
def getCap (n : ℕ) (caps : List (ℕ × Str)) : Str :=
  match caps.find? (fun c => c.1 = n) with
  | some c => c.2
  | none => []

/-- The scanning loop of replace(re, tmpl): structural recursion on a fuel
counter so that it computes by kernel reduction; each step consumes at least
one character, so a fuel of the text's length never runs out. -/
def replaceAllMGo (m : Matcher) (tmpl : List (ℕ × Str) → Str) : ℕ → Str → Str
  | 0, s => s
  | _ + 1, [] => []
  | fuel + 1, c :: cs =>
    match (m (c :: cs)).head? with
    | some r =>
      if r.used = 0 then c :: replaceAllMGo m tmpl fuel cs
      else tmpl r.caps ++ replaceAllMGo m tmpl fuel ((c :: cs).drop r.used)
    | none => c :: replaceAllMGo m tmpl fuel cs

/-- JS text.replace(re, tmpl) with the g flag: scan for the leftmost match,
emit the instantiated template, resume after the matched text (an empty match
lets the scan advance one character, as the JS lastIndex bump does). -/
def replaceAllM (m : Matcher) (tmpl : List (ℕ × Str) → Str) (s : Str) : Str :=
  replaceAllMGo m tmpl (lenAux 0 s) s

/-- Fuel-driven loop of the whitespace-run collapse. -/
def collapseWsGo : ℕ → Str → Str
  | 0, s => s
  | _ + 1, [] => []
  | fuel + 1, c :: cs =>
    if isWs c then ' ' :: collapseWsGo fuel (cs.dropWhile (fun d => isWs d))
    else c :: collapseWsGo fuel cs

/-- JS content.replace(/\s+/g, ' '): every maximal whitespace run becomes one
space. -/
def collapseWs (s : Str) : Str := collapseWsGo (lenAux 0 s) s

/-- The pattern of /\n\s*\n\s*\n/. -/
def nl3Matcher : Matcher :=
  mSeq (mLit false ['\n'])
    (mSeq (mStarCls isWs)
      (mSeq (mLit false ['\n'])
        (mSeq (mStarCls isWs) (mLit false ['\n']))))

/-! ContentRedesigner (content-redesigner.ts): light redesign. -/

/-- ContentRedesigner.getAggressiveTermReplacement. -/
def getAggressiveTermReplacement (term : String) : String :=
  let t := lowerStr term.data
  if t = ("guaranteed returns").data then "potential for appreciation"
  else if t = ("risk-free").data then "traditionally stable"
  else if t = ("get rich").data then "build wealth"
  else if t = ("explosive growth").data then "potential appreciation"
  else if t = ("fortune").data then "financial security"
  else "potential benefits"

/-- The Important Disclosure block (identical text in
ContentGenerator.addRequiredDisclaimers and
ContentRedesigner.getAppropriateDisclaimer). -/
def investmentDisclaimer : String :=
  "\n\n**Important Disclosure**: This information is for educational purposes only and is not intended as investment advice. Past performance does not guarantee future results. Please consult with a precious metals specialist to discuss your specific situation and investment objectives."

/-- The Educational Disclaimer block (identical text at both sites). -/
def educationalDisclaimer : String :=
  "\n\n**Educational Disclaimer**: The information provided is for educational purposes only. Liberty Gold Silver specializes in precious metals, not general financial advice. Please consult appropriate professionals for personalized guidance."

/-- ContentRedesigner.getAppropriateDisclaimer. -/
def getAppropriateDisclaimer (content : Str) : Str :=
  if subIn ("invest").data (lowerStr content) || subIn ("portfolio").data (lowerStr content)
  then investmentDisclaimer.data
  else educationalDisclaimer.data

/-- The whitespace clean-up closing performLightRedesign:
replace(/\s+/g, ' ') then replace(/\n\s*\n\s*\n/g, '\n\n') then trim. -/
def lightNormalize (s : Str) : Str :=
  trimWs (replaceAllM nl3Matcher (fun _ => ['\n', '\n']) (collapseWs s))

/-- ContentRedesigner.performLightRedesign: replace each aggressive term found
by the audit with its fixed substitute, strip each pressure tactic found,
append the appropriate disclaimer when the audit reported none, then normalize
whitespace.  The term replacements are new RegExp(term, 'gi') applications of
the literal term. -/
def performLightRedesign (orig : String) (audit : ContentAudit) : String :=
  let c1 := audit.sales_tactics.aggressive_terms.foldl
    (fun c t => replaceAllM (mLit true t.data) (fun _ => (getAggressiveTermReplacement t).data) c)
    orig.data
  let c2 := audit.sales_tactics.pressure_tactics.foldl
    (fun c t => replaceAllM (mLit true t.data) (fun _ => []) c) c1
  let c3 := if audit.compliance_requirements.disclaimers_present then c2
            else c2 ++ getAppropriateDisclaimer c2
  ⟨lightNormalize c3⟩

/-- No-newline check on a string body. -/
def noNewlines (s : Str) : Bool := s.all (fun c => decide (c ≠ '\n'))

/-- Concrete original text for the C4 counterexample: its audit finds risk
disclosures (risk via risk-free, fluctuate) and educational framing
(understand, education, evaluate inside overlapping phrases) but no
disclaimers; the light redesign destroys those overlapped markers. -/
def c4orig : String :=
  "understandon't wait last chanceducation last chancevaluate risk-free fluctuate"

/-- The light redesign of c4orig, as performed by the redesign pipeline. -/
def c4red : String := performLightRedesign c4orig (auditContent c4orig)

/-! ContentRedesigner: key-information extraction and weaving. -/

/-- JS parts.join(sep). -/
def joinSep (sep : Str) : List Str → Str
  | [] => []
  | [p] => p
  | p :: q :: ps => p ++ sep ++ joinSep sep (q :: ps)

/-- Presence of a match of /\$\d+/: a dollar sign immediately followed by a
digit. -/
def hasDollarNum : Str → Bool
  | a :: b :: rest => (a = '$' && isDigitC b) || hasDollarNum (b :: rest)
  | _ => false

/-- Presence of a match of /\d+\.\d+/: digit, period, digit consecutively. -/
def hasDecimalNum : Str → Bool
  | a :: b :: c :: rest =>
    (isDigitC a && b = '.' && isDigitC c) || hasDecimalNum (b :: c :: rest)
  | _ => false

/-- The statistics regex /\d+%|\$\d+|\d{4}|\d+\.\d+/ as a presence test. -/
def statRegexHit (s : Str) : Bool :=
  hasPct s || hasDollarNum s || hasRun4 s || hasDecimalNum s

/-- JS content.split('.').map(s => s.trim()).filter(s => s.length > 0),
shared by the extraction helpers. -/
def trimmedSentences (content : Str) : List Str :=
  ((splitOnChar '.' content).map trimWs).filter (fun p => !p.isEmpty)

def factualIndicators : List String :=
  ["according to", "data shows", "research indicates", "studies show",
   "history shows", "since 1971", "federal reserve", "treasury",
   "was established", "has been", "is regulated by"]

def importantConcepts : List String :=
  ["gold ira", "precious metals", "portfolio diversification", "inflation hedge",
   "wealth preservation", "economic uncertainty", "store of value",
   "physical possession", "tax advantages", "retirement planning"]

def companyIndicators : List String :=
  ["our process", "we provide", "our team", "our approach",
   "we believe", "our mission", "liberty gold silver"]

/-- ContentRedesigner.extractFacts. -/
def extractFacts (content : Str) : List String :=
  ((trimmedSentences content).filter
    (fun sect => factualIndicators.any (fun i => subIn i.data (lowerStr sect)))).map
      (fun l => String.mk l) |>.take 10

/-- ContentRedesigner.extractStatistics. -/
def extractStatistics (content : Str) : List String :=
  ((trimmedSentences content).filter statRegexHit).map (fun l => String.mk l) |>.take 8

/-- ContentRedesigner.extractKeyConcepts. -/
def extractKeyConcepts (content : Str) : List String :=
  importantConcepts.filter (fun c => subIn c.data (lowerStr content))

/-- ContentRedesigner.extractCompanySpecific. -/
def extractCompanySpecific (content : Str) : List String :=
  ((trimmedSentences content).filter
    (fun sect => companyIndicators.any (fun i => subIn i.data (lowerStr sect)))).map
      (fun l => String.mk l) |>.take 5

structure KeyInformation where
  facts : List String
  statistics : List String
  key_concepts : List String
  company_specific : List String
deriving Repr, DecidableEq

/-- ContentRedesigner.extractKeyInformation. -/
def extractKeyInformation (content : Str) : KeyInformation :=
  { facts := extractFacts content
    statistics := extractStatistics content
    key_concepts := extractKeyConcepts content
    company_specific := extractCompanySpecific content }

/-- ContentRedesigner.insertStatistic: splice the statistic (with a leading
space) at index 2 of the period-separated pieces, or append when there are at
most two pieces. -/
def insertStatistic (content stat : Str) : Str :=
  let sentences := splitOnChar '.' content
  if sentences.length > 2 then
    joinSep ['.'] (sentences.take 2 ++ (' ' :: stat) :: sentences.drop 2)
  else content ++ ' ' :: stat

/-- ContentRedesigner.insertFact: splice the fact at index 1 of the
paragraphs, or append after two newlines. -/
def insertFact (content fact : Str) : Str :=
  let paragraphs := splitOnNl2 content
  if paragraphs.length > 1 then
    joinSep ['\n', '\n'] (paragraphs.take 1 ++ fact :: paragraphs.drop 1)
  else content ++ '\n' :: '\n' :: fact

/-- ContentRedesigner.weaveInKeyInformation: weave in the first three
statistics, then the first two facts, skipping those already present. -/
def weaveInKeyInformation (content : Str) (ki : KeyInformation) : Str :=
  let e1 := (ki.statistics.take 3).foldl
    (fun e stat => if subIn stat.data e then e else insertStatistic e stat.data) content
  (ki.facts.take 2).foldl
    (fun e fact => if subIn fact.data e then e else insertFact e fact.data) e1

/-! ContentGenerator (content-generator.ts): template-based generation.  The
framework / engagement / technical prompt strings built by the source are
dead values (never used by the template path) and are not modelled; each pass
calls getBaseTemplate on the request's content type with the previous pass's
text as the topic, exactly as generateTemplateContent does. -/

/-- The blog template with the topic interpolated. -/
def blogTemplate (topic : Str) : Str :=
  ("# Understanding ").data ++ topic
    ++ (": A Guide for Informed Investors\n\nThe world of precious metals investing can seem complex, but understanding ").data
    ++ topic
    ++ (" is essential for anyone considering portfolio diversification. Let's explore this topic through the lens of historical context and practical application.\n\n## Historical Perspective\n\nThroughout history, precious metals have served as a store of value during economic uncertainty...\n\n## Current Market Analysis\n\nToday's market conditions present unique considerations for investors evaluating ").data
    ++ topic
    ++ ("...\n\n## Educational Takeaways\n\nFor investors seeking to understand ").data
    ++ topic
    ++ (", several key factors deserve consideration:\n\n- Historical performance data\n- Market fundamentals\n- Economic factors\n- Portfolio allocation principles\n\n## Next Steps\n\nUnderstanding ").data
    ++ topic
    ++ (" is just the beginning of your educational journey in precious metals investing.").data

/-- The email template with the topic interpolated. -/
def emailTemplate (topic : Str) : Str :=
  ("Subject: Understanding ").data ++ topic
    ++ (" - Educational Insights for Investors\n\nDear Valued Investor,\n\nAs economic conditions continue to evolve, many investors are seeking to understand ").data
    ++ topic
    ++ (" and its role in a diversified portfolio.\n\nToday, I'd like to share some educational insights that can help you make more informed decisions...\n\nKey considerations include:\n- Historical context and performance\n- Current market dynamics\n- Portfolio allocation principles\n\nIf you'd like to learn more about ").data
    ++ topic
    ++ (", I invite you to download our free educational guide.\n\nBest regards,\nThe Liberty Gold Silver Team").data

/-- The landing-page template with the topic interpolated. -/
def landingPageTemplate (topic : Str) : Str :=
  ("# ").data ++ topic
    ++ (": Your Guide to Informed Precious Metals Investing\n\nAre you seeking to understand ").data
    ++ topic
    ++ (" and its potential role in your investment portfolio? You've come to the right place for unbiased, educational information.\n\n## Why Understanding ").data
    ++ topic
    ++ (" Matters\n\nIn today's economic climate, informed investors are exploring all options for portfolio diversification and wealth preservation...\n\n## What You'll Learn\n\nOur comprehensive educational approach covers:\n- Historical analysis and precedent\n- Current market considerations\n- Portfolio integration strategies\n- Risk assessment frameworks\n\n## Get Your Free Educational Guide\n\nDownload our comprehensive guide to understanding ").data
    ++ topic
    ++ (" and precious metals investing.").data

/-- The market-update template with the topic interpolated. -/
def marketUpdateTemplate (topic : Str) : Str :=
  ("# Market Update: ").data ++ topic
    ++ (" Analysis\n\n## Current Market Conditions\n\nRecent market data shows interesting developments regarding ").data
    ++ topic
    ++ (". Let's examine these trends through an educational lens.\n\n## Key Data Points\n\n- Current pricing trends\n- Volume analysis\n- Historical comparison\n- Economic factors\n\n## Educational Analysis\n\nFor investors seeking to understand these market movements, several factors warrant consideration...\n\n## Takeaway for Investors\n\nUnderstanding ").data
    ++ topic
    ++ (" in the current market context requires careful analysis of multiple factors...").data

/-- The webpage template with the topic interpolated. -/
def webpageTemplate (topic : Str) : Str :=
  ("# ").data ++ topic
    ++ (": Educational Resource for Precious Metals Investors\n\nWelcome to our comprehensive educational resource on ").data
    ++ topic
    ++ (". Our mission is simple: provide you with the knowledge needed to make informed decisions about precious metals investing.\n\n## Understanding the Fundamentals\n\n").data
    ++ topic
    ++ (" represents an important concept in precious metals investing. To truly understand its implications, we need to examine both historical context and current market realities.\n\n## Historical Analysis\n\nThroughout economic history, precious metals have played a crucial role in wealth preservation...\n\n## Current Market Perspective\n\nToday's investment landscape presents unique considerations for those evaluating ").data
    ++ topic
    ++ ("...\n\n## Educational Resources\n\nWe believe in empowering investors through education. That's why we provide comprehensive resources to help you understand ").data
    ++ topic
    ++ (" and its place in modern portfolio management.").data

/-- ContentGenerator.getBaseTemplate with the blog fallback for unknown
content types. -/
def getBaseTemplate (contentType : String) (topic : Str) : Str :=
  if contentType = "blog" then blogTemplate topic
  else if contentType = "email" then emailTemplate topic
  else if contentType = "landing_page" then landingPageTemplate topic
  else if contentType = "market_update" then marketUpdateTemplate topic
  else if contentType = "webpage" then webpageTemplate topic
  else blogTemplate topic

/-- ContentGenerator.enhanceEngagement: three case-sensitive global literal
replacements. -/
def enhanceEngagement (content : Str) : Str :=
  replaceAllM (mLit false ("It's important to").data)
    (fun _ => ("What's particularly important is to").data)
    (replaceAllM (mLit false ("Consider this:").data)
      (fun _ => ("Here's something worth considering:").data)
      (replaceAllM (mLit false ("Throughout history,").data)
        (fun _ => ("Think of it this way: throughout history,").data) content))

/-- BrandVoiceEngine.applyBrandVoiceTransformation: five case-insensitive
alternation replacements, then the full reframing when the text still
contains sell or convince (in which case the tail is the lower-cased text
with /sell|convince/g replaced). -/
def applyBrandVoiceTransformation (request : Str) : Str :=
  let t1 := replaceAllM
    (mAlt true [("urgent").data, ("hurry").data, ("act now").data, ("limited time").data])
    (fun _ => ("consider the importance of").data) request
  let t2 := replaceAllM (mAlt true [("buy now").data, ("purchase immediately").data])
    (fun _ => ("explore the benefits of").data) t1
  let t3 := replaceAllM (mAlt true [("guaranteed returns").data, ("risk-free").data])
    (fun _ => ("historically demonstrated potential for").data) t2
  let t4 := replaceAllM (mAlt true [("get rich").data, ("explosive growth").data])
    (fun _ => ("wealth preservation and potential appreciation").data) t3
  let t5 := replaceAllM (mAlt true [("don't miss out").data, ("last chance").data])
    (fun _ => ("understanding the opportunity of").data) t4
  if subIn ("sell").data (lowerStr t5) || subIn ("convince").data (lowerStr t5) then
    ("Create educational content about precious metals that helps readers understand ").data
      ++ replaceAllM (mAlt false [("sell").data, ("convince").data])
          (fun _ => ("the benefits of").data) (lowerStr t5)
  else t5

/-- ContentGenerator.applyTechnicalPolish: the no-op double-newline
replacement followed by trim. -/
def applyTechnicalPolish (content : Str) : Str :=
  trimWs (replaceAllM (mLit false ['\n', '\n']) (fun _ => ['\n', '\n']) content)

/-- ContentGenerator.addRequiredDisclaimers: append the investment disclosure
when invest / portfolio / return occurs (lower-cased), else the educational
disclaimer. -/
def addRequiredDisclaimers (content : Str) : Str :=
  let cl := lowerStr content
  content ++
    (if subIn ("invest").data cl || subIn ("portfolio").data cl || subIn ("return").data cl
     then investmentDisclaimer.data
     else educationalDisclaimer.data)

/-- A ContentRequest; the topic is kept as a character list. -/
structure ContentRequest where
  content_type : String
  topic : Str
  target_audience : Option String
  length_target : Option String
  include_cta : Bool

/-- ContentGenerator.generateContent, restricted to the content text it
produces: pass 1 instantiates the template on the brand-voice-transformed
topic, pass 2 re-instantiates the template on the pass-1 text and enhances
engagement, pass 3 re-instantiates on the pass-2 text, polishes and appends
the required disclaimer.  (The SEO metadata and compliance summary of the
full result are not consumed by the redesign path.) -/
def generateContentText (req : ContentRequest) : Str :=
  let transformedTopic := applyBrandVoiceTransformation req.topic
  let p1 := getBaseTemplate req.content_type transformedTopic
  let p2 := enhanceEngagement (getBaseTemplate req.content_type p1)
  let p3 := applyTechnicalPolish (getBaseTemplate req.content_type p2)
  addRequiredDisclaimers p3

/-- ContentRedesigner.extractCoreTheme. -/
def extractCoreTheme (content : Str) : Str :=
  let cl := lowerStr content
  if subIn ("gold ira").data cl then ("Gold IRA benefits and considerations").data
  else if subIn ("silver investing").data cl then ("Silver investment fundamentals").data
  else if subIn ("inflation").data cl then ("Precious metals as inflation hedge").data
  else if subIn ("retirement").data cl then ("Precious metals in retirement planning").data
  else ("Precious metals investment education").data

/-- ContentRedesigner.determineLength. -/
def determineLength (content : Str) : String :=
  let wc := wordCount content
  if wc < 300 then "short" else if wc < 800 then "medium" else "long"

/-- A RedesignRequest with the option fields of the TS interface. -/
structure RedesignRequest where
  original_content : String
  content_type : Option String
  target_audience : Option String
  preserve_key_information : Bool
  redesign_intensity : Option String
  specific_requirements : List String

/-- The freshly generated content of the complete redesign: the request built
by performCompleteRedesign (content type falling back to blog, the audience
falling back to security_seekers, the topic being the extracted core theme)
passed through the generation pipeline. -/
def completeRegenerated (orig : Str) (req : RedesignRequest) : Str :=
  generateContentText
    { content_type := req.content_type.getD "blog"
      topic := extractCoreTheme orig
      target_audience := some (req.target_audience.getD "security_seekers")
      length_target := some (determineLength orig)
      include_cta := subIn ("call").data (lowerStr orig) || subIn ("contact").data (lowerStr orig) }

/-- ContentRedesigner.performCompleteRedesign: regenerate from the core theme
and weave the preserved key information back in.  The audit argument is
accepted, as in the source, but unused. -/
def performCompleteRedesign (orig : Str) (_audit : ContentAudit) (req : RedesignRequest)
    (keyInfo : Option KeyInformation) : Str :=
  let newContent := completeRegenerated orig req
  match keyInfo with
  | some ki => weaveInKeyInformation newContent ki
  | none => newContent

/-- Steps 1-3 of ContentRedesigner.redesignContent for a complete-intensity
request: audit the original, extract the key information when preservation is
requested, and perform the complete redesign. -/
def completeRedesignOutput (req : RedesignRequest) : Str :=
  let orig := req.original_content.data
  let originalAudit := auditContent req.original_content
  let keyInfo := if req.preserve_key_information
    then some (extractKeyInformation orig) else none
  performCompleteRedesign orig originalAudit req keyInfo

/-- Concrete original text for the C5 counterexample: four statistic
sentences; the fourth contains the capital letter Q, which occurs nowhere in
the templates, disclaimers, replacement strings or extracted topic of the
generation pipeline. -/
def c5orig : String :=
  "Gold rose 10% in 2020. Silver gained 15% that year. Platinum fell 5% overall. Quietly palladium added 25% more."

/-- The complete-intensity redesign request on c5orig with preservation
enabled. -/
def c5req : RedesignRequest :=
  { original_content := c5orig
    content_type := some "email"
    target_audience := none
    preserve_key_information := true
    redesign_intensity := some "complete"
    specific_requirements := [] }

/-! ContentRedesigner: the moderate redesign and the performRedesign
dispatch. -/

/-- A single-character class matcher: one character satisfying p. -/
def mCls (p : Char → Bool) : Matcher := fun s =>
  match s with
  | [] => []
  | c :: _ => if p c then [⟨1, []⟩] else []

/-- ContentRedesigner.generateTitle.  The firstSentence local of the source is
computed and never used; only the lower-cased theme checks pick the title. -/
def generateTitle (content : Str) : String :=
  let cl := lowerStr content
  if subIn ("gold ira").data cl then "Understanding Gold IRAs: A Guide for Informed Investors"
  else if subIn ("silver").data cl then
    "Silver Investing: Educational Insights for Portfolio Diversification"
  else if subIn ("precious metals").data cl then
    "Precious Metals Education: Building Knowledge for Informed Decisions"
  else "Educational Guide: Understanding Precious Metals Investing"

/-- ContentRedesigner.identifySections. -/
def identifySections (paragraphs : List Str) : List String :=
  (if paragraphs.length > 0 then ["Introduction"] else [])
    ++ (if paragraphs.length > 2 then ["Key Benefits"] else [])
    ++ (if paragraphs.length > 4 then ["Important Considerations"] else [])
    ++ (if paragraphs.length > 6 then ["Next Steps"] else [])

/-- Loop body of ContentRedesigner.addSectionHeaders: i is the index of the
current paragraph piece, total the number of pieces. -/
def ashGo (sections : List String) (total : ℕ) : ℕ → List Str → Str
  | _, [] => []
  | i, p :: ps =>
    (if 0 < i ∧ i < sections.length + 1
     then ("\n\n## ").data ++ (sections.getD (i - 1) "").data ++ '\n' :: '\n' :: []
     else [])
      ++ p ++ (if i < total - 1 then '\n' :: '\n' :: ([] : Str) else [])
      ++ ashGo sections total (i + 1) ps

/-- ContentRedesigner.addSectionHeaders: splice the section titles between the
double-newline-separated pieces. -/
def addSectionHeaders (content : Str) (sections : List String) : Str :=
  ashGo sections (splitOnNl2 content).length 0 (splitOnNl2 content)

/-- The pattern of /([.!?])\s+([A-Z])/. -/
def sentenceBreakMatcher : Matcher :=
  mSeq (mGroup 1 (mCls (fun c => decide (c = '.') || decide (c = '!') || decide (c = '?'))))
    (mSeq (mPlusCls isWs)
      (mGroup 2 (mCls (fun c => decide ('A' ≤ c) && decide (c ≤ 'Z')))))

/-- ContentRedesigner.breakUpLongParagraphs:
replace(/([.!?])\s+([A-Z])/g, with the two captures around two newlines). -/
def breakUpLongParagraphs (content : Str) : Str :=
  replaceAllM sentenceBreakMatcher
    (fun caps => getCap 1 caps ++ '\n' :: '\n' :: getCap 2 caps) content

/-- The pattern of
/([^.]+)(benefits|advantages|factors|considerations|reasons)([^.]+:)\s*([^.]+,\s*[^.]+,\s*[^.]+)/gi. -/
def listPatternMatcher : Matcher :=
  mSeq (mGroup 1 (mPlusCls (fun c => decide (c ≠ '.'))))
    (mSeq (mGroup 2 (mAlt true [("benefits").data, ("advantages").data, ("factors").data,
        ("considerations").data, ("reasons").data]))
      (mSeq (mGroup 3 (mSeq (mPlusCls (fun c => decide (c ≠ '.'))) (mLit false [':'])))
        (mSeq (mStarCls isWs)
          (mGroup 4 (mSeq (mPlusCls (fun c => decide (c ≠ '.')))
            (mSeq (mLit false [','])
              (mSeq (mStarCls isWs)
                (mSeq (mPlusCls (fun c => decide (c ≠ '.')))
                  (mSeq (mLit false [','])
                    (mSeq (mStarCls isWs)
                      (mPlusCls (fun c => decide (c ≠ '.')))))))))))))

/-- ContentRedesigner.convertToLists.  The source preprocesses its replacement
template string with .replace(/,\s*/g, ...), which is the identity on that
comma-free template, leaving the plain capture template below. -/
def convertToLists (content : Str) : Str :=
  replaceAllM listPatternMatcher
    (fun caps => getCap 1 caps ++ getCap 2 caps ++ getCap 3 caps
      ++ '\n' :: '•' :: ' ' :: getCap 4 caps) content

/-- ContentRedesigner.improveContentStructure: add a main title (and section
headers for long texts) when paragraphs are plentiful and no # is present,
then break up long paragraphs and convert list-like runs to bullets.  The
keyInfo parameter is accepted, as in the source, but unused. -/
def improveContentStructure (content : Str) (_keyInfo : Option KeyInformation) : Str :=
  let paragraphs := (splitOnNl2 content).filter (fun p => !(trimWs p).isEmpty)
  let improved :=
    if paragraphs.length > 3 && !subIn ['#'] content then
      let titled := ("# ").data ++ (generateTitle content).data ++ '\n' :: '\n' :: content
      if paragraphs.length > 5 then addSectionHeaders titled (identifySections paragraphs)
      else titled
    else content
  convertToLists (breakUpLongParagraphs improved)

/-- ContentRedesigner.enhanceAuthoritativeness: three case-insensitive global
replacements, applied in source order. -/
def enhanceAuthoritativeness (content : Str) : Str :=
  replaceAllM (mLit true ("Maybe").data) (fun _ => ("Evidence suggests").data)
    (replaceAllM (mLit true ("It seems").data) (fun _ => ("Analysis shows").data)
      (replaceAllM (mLit true ("I think").data) (fun _ => ("Research indicates").data) content))

/-- ContentRedesigner.improveTrustworthiness. -/
def improveTrustworthiness (content : Str) : Str :=
  if subIn ("risk").data (lowerStr content) then content
  else content
    ++ (" It's important to understand that all investments carry risk and require careful consideration.").data

/-- ContentRedesigner.increaseProtectiveness. -/
def increaseProtectiveness (content : Str) : Str :=
  replaceAllM (mLit true ("get yours").data) (fun _ => ("understand the value of").data)
    (replaceAllM (mLit true ("purchase").data) (fun _ => ("explore").data)
      (replaceAllM (mLit true ("buy now").data) (fun _ => ("consider the benefits of").data) content))

/-- ContentRedesigner.transformBrandVoice: the brand-voice transformation plus
three conditional rewrites keyed on the audit's brand-voice sub-scores. -/
def transformBrandVoice (content : Str) (audit : ContentAudit) : Str :=
  let t1 := applyBrandVoiceTransformation content
  let t2 := if audit.brand_voice.knowledgeable_authoritative < 70
            then enhanceAuthoritativeness t1 else t1
  let t3 := if audit.brand_voice.trustworthy_transparent < 70
            then improveTrustworthiness t2 else t2
  if audit.brand_voice.protective_strategic < 70 then increaseProtectiveness t3 else t3

/-- ContentRedesigner.applyPersonaLanguage.  The guidance.persona access on an
inherited prototype member gives undefined, which never equals the string. -/
def applyPersonaLanguage (content : Str) (guidance : GuidanceResult) : Str :=
  if guidancePersona guidance = some "Security Seekers" then
    replaceAllM (mLit true ("opportunity").data) (fun _ => ("secure opportunity").data)
      (replaceAllM (mLit true ("growth").data) (fun _ => ("stability and growth").data) content)
  else content

/-- ContentRedesigner.adjustComplexity. -/
def adjustComplexity (content : Str) : Str :=
  replaceAllM (mLit true ("subsequently").data) (fun _ => ("then").data)
    (replaceAllM (mLit true ("facilitate").data) (fun _ => ("help").data)
      (replaceAllM (mLit true ("utilize").data) (fun _ => ("use").data) content))

/-- ContentRedesigner.removeInappropriateLanguage. -/
def removeInappropriateLanguage (content : Str) : Str :=
  (["yo", "bro", "lit", "fire", "sick"] : List String).foldl
    (fun c t => replaceAllM (mLit true t.data) (fun _ => []) c) content

/-- ContentRedesigner.improveAudienceAlignment. -/
def improveAudienceAlignment (content : Str) (targetAudience : Option String) : Str :=
  removeInappropriateLanguage
    (adjustComplexity
      (applyPersonaLanguage content (getPersonaGuidance (targetAudience.getD "security_seekers"))))

/-- ContentRedesigner.addRiskDisclosures. -/
def addRiskDisclosures (content : Str) : Str :=
  if subIn ("risk").data (lowerStr content) then content
  else content
    ++ (" Please remember that all investments involve risk and past performance does not guarantee future results.").data

/-- ContentRedesigner.addEducationalFraming. -/
def addEducationalFraming (content : Str) : Str :=
  if subIn ("understand").data (lowerStr content) || subIn ("education").data (lowerStr content)
  then content
  else ("Understanding the fundamentals is crucial for informed decision-making. ").data ++ content

/-- ContentRedesigner.ensureCompliance. -/
def ensureCompliance (content : Str) (audit : ContentAudit) : Str :=
  let c1 := if audit.compliance_requirements.disclaimers_present then content
            else content ++ getAppropriateDisclaimer content
  let c2 := if audit.compliance_requirements.risk_disclosures then c1 else addRiskDisclosures c1
  if audit.compliance_requirements.educational_framing then c2 else addEducationalFraming c2

/-- ContentRedesigner.performModerateRedesign. -/
def performModerateRedesign (content : Str) (audit : ContentAudit) (req : RedesignRequest)
    (keyInfo : Option KeyInformation) : Str :=
  let s1 := improveContentStructure content keyInfo
  let s2 := transformBrandVoice s1 audit
  let s3 := improveAudienceAlignment s2 req.target_audience
  let s4 := ensureCompliance s3 audit
  let s5 := match keyInfo with
    | some ki => weaveInKeyInformation s4 ki
    | none => s4
  trimWs s5

/-- ContentRedesigner.performRedesign: dispatch on redesign_intensity; a
missing intensity falls to moderate through the JS || default, and the switch
default routes every other unknown value to the moderate redesign. -/
def performRedesign (orig : Str) (audit : ContentAudit) (req : RedesignRequest)
    (keyInfo : Option KeyInformation) : Str :=
  let intensity := req.redesign_intensity.getD "moderate"
  if intensity = "light" then (performLightRedesign (String.mk orig) audit).data
  else if intensity = "moderate" then performModerateRedesign orig audit req keyInfo
  else if intensity = "complete" then performCompleteRedesign orig audit req keyInfo
  else performModerateRedesign orig audit req keyInfo

/-- Concrete original text for the C2 counterexample: its audit's five
dimension scores are 75, 47, 63, 75 and 24, whose exact weighted sum 62.5
sits exactly half-way while the IEEE-double sum falls just below it. -/
def c2orig : String :=
  "consult a professional specialist. according to the federal reserve and treasury. another plain sentence with nothing special. guaranteed returns risk-free fortune.\n\nmore text here"

/-- A score lies in the documented [0, 100] range. -/
def inRange (x : ℤ) : Prop := 0 ≤ x ∧ x ≤ 100

/-! Range lemmas: every sub-score, dimension score and the overall score lies
in [0, 100]. -/

theorem clamp_range (x : ℤ) : inRange (clamp x) := by
  unfold inRange clamp; omega

theorem roundQ_range {q : ℚ} (h0 : 0 ≤ q) (h1 : q ≤ 100) : inRange (roundQ q) := by
  unfold inRange roundQ
  have e0 : ⌊(0 : ℚ) + 1 / 2⌋ = 0 := by norm_num
  have e1 : ⌊(100 : ℚ) + 1 / 2⌋ = 100 := by
    rw [Int.floor_eq_iff]
    norm_num
  constructor
  · calc (0 : ℤ) = ⌊(0 : ℚ) + 1 / 2⌋ := e0.symm
      _ ≤ ⌊q + 1 / 2⌋ := Int.floor_le_floor (by linarith)
  · calc ⌊q + 1 / 2⌋ ≤ ⌊(100 : ℚ) + 1 / 2⌋ := Int.floor_le_floor (by linarith)
      _ = 100 := e1

theorem roundRat_eq (n : ℤ) (d : ℕ) (hd : 0 < d) :
    roundRat n d = roundQ ((n : ℚ) / (d : ℚ)) := by
  unfold roundRat roundQ
  have hdq : ((d : ℚ)) ≠ 0 := by positivity
  have key : (n : ℚ) / d + 1/2 = ((2 * n + d : ℤ) : ℚ) / ((2 * d : ℕ) : ℚ) := by
    push_cast
    field_simp
    ring
  rw [key, Rat.floor_intCast_div_natCast]

theorem priorityOf_eq (s : ℤ) (comp : ComplianceAnalysis) :
    determineRedesignPriority s comp = specPriorityOf s comp.disclaimers_present := by
  unfold determineRedesignPriority specPriorityOf
  split_ifs with h1 h2 h3 h4 <;> try rfl
  all_goals simp_all

/-! Lemmas about the IEEE-double model: bit lengths, the nearest-even
rounding, and the relative error of each rounded operation, leading to the
closeness of the double weighted sum to the exact one. -/

theorem bitLenAux_zero (fuel : ℕ) : bitLenAux fuel 0 = 0 := by
  cases fuel <;> simp [bitLenAux]

theorem bitLenAux_spec :
    ∀ fuel n : ℕ, n ≤ fuel → 0 < n →
      2 ^ (bitLenAux fuel n - 1) ≤ n ∧ n < 2 ^ bitLenAux fuel n := by
  intro fuel
  induction fuel with
  | zero => intro n hn h0; omega
  | succ fuel ih =>
    intro n hn h0
    rw [bitLenAux, if_neg (by omega)]
    rcases Nat.lt_or_ge n 2 with h2 | h2
    · have hn1 : n = 1 := by omega
      subst hn1
      norm_num [bitLenAux_zero]
    · have hle : n / 2 ≤ fuel := by omega
      obtain ⟨hlo, hhi⟩ := ih (n / 2) hle (by omega)
      have hL1 : 1 ≤ bitLenAux fuel (n / 2) := by
        rcases Nat.eq_zero_or_pos (bitLenAux fuel (n / 2)) with hz | hp
        · rw [hz, pow_zero] at hhi; omega
        · exact hp
      obtain ⟨LL, hLL⟩ : ∃ LL, bitLenAux fuel (n / 2) = LL + 1 :=
        ⟨bitLenAux fuel (n / 2) - 1, by omega⟩
      rw [hLL] at hlo hhi ⊢
      simp only [Nat.add_sub_cancel] at hlo ⊢
      have hp1 : (2:ℕ) ^ (LL + 1) = 2 ^ LL * 2 := pow_succ 2 LL
      have hp2 : (2:ℕ) ^ (LL + 1 + 1) = 2 ^ (LL + 1) * 2 := pow_succ 2 (LL + 1)
      omega

theorem bitLen_spec {n : ℕ} (h0 : 0 < n) :
    2 ^ (bitLen n - 1) ≤ n ∧ n < 2 ^ bitLen n :=
  bitLenAux_spec n n le_rfl h0

theorem rheNat_bounds (n s : ℕ) :
    2 * (rheNat n s * 2 ^ s) ≤ 2 * n + 2 ^ s
      ∧ 2 * n ≤ 2 * (rheNat n s * 2 ^ s) + 2 ^ s := by
  simp only [rheNat]
  by_cases h0 : s = 0
  · rw [if_pos h0]
    subst h0
    simp only [pow_zero, mul_one]
    omega
  · rw [if_neg h0]
    obtain ⟨t, rfl⟩ : ∃ t, s = t + 1 := ⟨s - 1, by omega⟩
    simp only [Nat.add_sub_cancel]
    have hd : n / 2 ^ (t + 1) * 2 ^ (t + 1) + n % 2 ^ (t + 1) = n := Nat.div_add_mod' n _
    have hm : n % 2 ^ (t + 1) < 2 ^ (t + 1) := Nat.mod_lt _ (by positivity)
    have hp : (2:ℕ) ^ (t + 1) = 2 ^ t * 2 := pow_succ 2 t
    split_ifs with hc1 hc2 hc3
    · omega
    · rw [Nat.add_mul, one_mul]
      omega
    · omega
    · rw [Nat.add_mul, one_mul]
      omega

theorem dyVal_nonneg {d : Dy} (h : 0 ≤ d.m) : 0 ≤ dyVal d := by
  unfold dyVal
  positivity

set_option maxHeartbeats 1000000 in
theorem flDy_err (d : Dy) : |dyVal (flDy d) - dyVal d| ≤ |dyVal d| / 2 ^ 53 := by
  simp only [flDy]
  split_ifs with hL
  · simp only [sub_self, abs_zero]
    positivity
  · have ha0 : 0 < d.m.natAbs := by
      by_contra hc
      have hz : d.m.natAbs = 0 := by omega
      rw [hz] at hL
      exact hL (by norm_num [bitLen, bitLenAux_zero])
    obtain ⟨hlo, hhi⟩ := bitLen_spec ha0
    have hL54 : 54 ≤ bitLen d.m.natAbs := by omega
    have hb := rheNat_bounds d.m.natAbs (bitLen d.m.natAbs - 53)
    have hm0 : d.m ≠ 0 := by
      intro hz
      rw [hz] at ha0
      simp at ha0
    -- the key integer estimates
    have hkey1 : 2 ^ (bitLen d.m.natAbs - 53 - 1 + 53) ≤ d.m.natAbs := by
      calc 2 ^ (bitLen d.m.natAbs - 53 - 1 + 53) = 2 ^ (bitLen d.m.natAbs - 1) := by
            congr 1
            omega
        _ ≤ d.m.natAbs := hlo
    set a := d.m.natAbs with hadef
    set s := bitLen a - 53 with hsdef
    have hs1 : 1 ≤ s := by omega
    -- rational versions
    have hdiff : |dyVal ⟨d.m.sign * ((rheNat a s * 2 ^ s : ℕ) : ℤ), d.k⟩ - dyVal d|
        = |((rheNat a s * 2 ^ s : ℕ) : ℚ) - (a : ℚ)| / 2 ^ d.k := by
      unfold dyVal
      rw [div_sub_div_same, abs_div, abs_of_pos (by positivity : (0:ℚ) < 2 ^ d.k)]
      congr 1
      have hsign : d.m = d.m.sign * (a : ℤ) := by
        rw [hadef, Int.sign_mul_natAbs]
      rw [show ((d.m.sign * ((rheNat a s * 2 ^ s : ℕ) : ℤ) : ℤ) : ℚ)
            - (d.m : ℚ)
          = (d.m.sign : ℚ) * (((rheNat a s * 2 ^ s : ℕ) : ℚ) - (a : ℚ)) from by
        rw [show (d.m : ℚ) = ((d.m.sign * (a : ℤ) : ℤ) : ℚ) from by rw [← hsign]]
        push_cast
        ring]
      rw [abs_mul]
      rcases Int.lt_or_lt_of_ne hm0 with hneg | hpos
      · rw [Int.sign_eq_neg_one_of_neg hneg]
        norm_num
      · rw [Int.sign_eq_one_of_pos hpos]
        norm_num
    have habsd : |dyVal d| = (a : ℚ) / 2 ^ d.k := by
      unfold dyVal
      rw [abs_div, abs_of_pos (by positivity : (0:ℚ) < 2 ^ d.k)]
      congr 1
      rw [hadef, Int.cast_natAbs, Int.cast_abs]
    have hnum : |((rheNat a s * 2 ^ s : ℕ) : ℚ) - (a : ℚ)| ≤ (a : ℚ) / 2 ^ 53 := by
      have hq1 : 2 * ((rheNat a s * 2 ^ s : ℕ) : ℚ) ≤ 2 * (a : ℚ) + 2 ^ s := by
        exact_mod_cast hb.1
      have hq2 : 2 * (a : ℚ) ≤ 2 * ((rheNat a s * 2 ^ s : ℕ) : ℚ) + 2 ^ s := by
        exact_mod_cast hb.2
      have hkeyq : (2 : ℚ) ^ (s - 1 + 53) ≤ (a : ℚ) := by exact_mod_cast hkey1
      have hsplit : (2 : ℚ) ^ (s - 1 + 53) = 2 ^ (s - 1) * 2 ^ 53 := pow_add 2 _ _
      have hs2 : (2 : ℚ) ^ s = 2 ^ (s - 1) * 2 := by
        rw [← pow_succ]
        congr 1
        omega
      have hhalf : (2 : ℚ) ^ (s - 1) ≤ (a : ℚ) / 2 ^ 53 := by
        rw [le_div_iff₀ (by positivity : (0:ℚ) < 2 ^ 53)]
        calc (2 : ℚ) ^ (s - 1) * 2 ^ 53 = 2 ^ (s - 1 + 53) := (pow_add 2 _ _).symm
          _ ≤ (a : ℚ) := hkeyq
      rw [abs_le]
      constructor
      · linarith [hhalf, hs2, hq2]
      · linarith [hhalf, hs2, hq1]
    rw [hdiff, habsd,
      show ((a : ℚ) / 2 ^ d.k) / 2 ^ 53 = ((a : ℚ) / 2 ^ 53) / 2 ^ d.k from
        div_right_comm _ _ _,
      div_le_div_iff (by positivity) (by positivity)]
    exact mul_le_mul_of_nonneg_right hnum (by positivity)

theorem dyVal_mul (a b : Dy) : dyVal ⟨a.m * b.m, a.k + b.k⟩ = dyVal a * dyVal b := by
  unfold dyVal
  push_cast
  rw [pow_add]
  field_simp

theorem dyMul_err (a b : Dy) :
    |dyVal (dyMul a b) - dyVal a * dyVal b| ≤ |dyVal a * dyVal b| / 2 ^ 53 := by
  unfold dyMul
  rw [← dyVal_mul]
  exact flDy_err _

theorem dyAdd_err (a b : Dy) :
    |dyVal (dyAdd a b) - (dyVal a + dyVal b)| ≤ |dyVal a + dyVal b| / 2 ^ 53 := by
  unfold dyAdd
  split_ifs with hk
  · have he : dyVal ⟨a.m * 2 ^ (b.k - a.k) + b.m, b.k⟩ = dyVal a + dyVal b := by
      unfold dyVal
      have h2 : ((2:ℚ)) ^ (b.k - a.k) * 2 ^ a.k = 2 ^ b.k := by
        rw [← pow_add]
        congr 1
        omega
      push_cast
      rw [add_div]
      congr 1
      rw [div_eq_div_iff (by positivity) (by positivity), mul_assoc, h2]
    rw [← he]
    exact flDy_err _
  · have he : dyVal ⟨a.m + b.m * 2 ^ (a.k - b.k), a.k⟩ = dyVal a + dyVal b := by
      unfold dyVal
      have h2 : ((2:ℚ)) ^ (a.k - b.k) * 2 ^ b.k = 2 ^ a.k := by
        rw [← pow_add]
        congr 1
        omega
      push_cast
      rw [add_div]
      congr 1
      rw [div_eq_div_iff (by positivity) (by positivity), mul_assoc, h2]
    rw [← he]
    exact flDy_err _

theorem jsRound_eq (d : Dy) : jsRound d = ⌊dyVal d + 1 / 2⌋ := by
  unfold jsRound dyVal
  rw [roundRat_eq _ _ (by positivity)]
  unfold roundQ
  congr 1
  push_cast
  ring

theorem floor_close {x y : ℚ} (h : |x - y| ≤ 1 / 4) :
    |⌊x + 1/2⌋ - ⌊y + 1/2⌋| ≤ 1 := by
  rw [abs_le] at h ⊢
  have hxy : ⌊x + 1/2⌋ ≤ ⌊y + 1/2⌋ + 1 := by
    calc ⌊x + 1/2⌋ ≤ ⌊(y + 1/2) + 1⌋ := Int.floor_le_floor (by linarith)
      _ = ⌊y + 1/2⌋ + 1 := Int.floor_add_one _
  have hyx : ⌊y + 1/2⌋ ≤ ⌊x + 1/2⌋ + 1 := by
    calc ⌊y + 1/2⌋ ≤ ⌊(x + 1/2) + 1⌋ := Int.floor_le_floor (by linarith)
      _ = ⌊x + 1/2⌋ + 1 := Int.floor_add_one _
  omega

set_option maxHeartbeats 4000000 in
theorem jsWeightedSum_close (bv au st co sa : ℤ)
    (h1 : inRange bv) (h2 : inRange au) (h3 : inRange st) (h4 : inRange co)
    (h5 : inRange sa) :
    |dyVal (jsWeightedSum bv au st co sa)
      - ((30 * bv + 20 * au + 15 * st + 25 * co + 10 * sa : ℤ) : ℚ) / 100| ≤ 1 / 4 := by
  obtain ⟨ha0, ha1⟩ := h1
  obtain ⟨hb0, hb1⟩ := h2
  obtain ⟨hc0, hc1⟩ := h3
  obtain ⟨hd0, hd1⟩ := h4
  obtain ⟨he0, he1⟩ := h5
  have hA0 : (0:ℚ) ≤ (bv:ℚ) := by exact_mod_cast ha0
  have hA1 : (bv:ℚ) ≤ 100 := by exact_mod_cast ha1
  have hB0 : (0:ℚ) ≤ (au:ℚ) := by exact_mod_cast hb0
  have hB1 : (au:ℚ) ≤ 100 := by exact_mod_cast hb1
  have hC0 : (0:ℚ) ≤ (st:ℚ) := by exact_mod_cast hc0
  have hC1 : (st:ℚ) ≤ 100 := by exact_mod_cast hc1
  have hD0 : (0:ℚ) ≤ (co:ℚ) := by exact_mod_cast hd0
  have hD1 : (co:ℚ) ≤ 100 := by exact_mod_cast hd1
  have hE0 : (0:ℚ) ≤ (sa:ℚ) := by exact_mod_cast he0
  have hE1 : (sa:ℚ) ≤ 100 := by exact_mod_cast he1
  unfold jsWeightedSum
  set P1 := dyMul ⟨bv, 0⟩ w03 with hP1def
  set P2 := dyMul ⟨au, 0⟩ w02 with hP2def
  set P3 := dyMul ⟨st, 0⟩ w015 with hP3def
  set P4 := dyMul ⟨co, 0⟩ w025 with hP4def
  set P5 := dyMul ⟨sa, 0⟩ w01 with hP5def
  set S1 := dyAdd P1 P2 with hS1def
  set S2 := dyAdd S1 P3 with hS2def
  set S3 := dyAdd S2 P4 with hS3def
  set S4 := dyAdd S3 P5 with hS4def
  have t1 : |dyVal P1 - (bv:ℚ) * (5404319552844595 / 2 ^ 54)| ≤ 1 / 2 ^ 45 := by
    have e1 := dyMul_err ⟨bv, 0⟩ w03
    rw [show dyVal (⟨bv, 0⟩ : Dy) = (bv:ℚ) from by simp [dyVal],
      show dyVal w03 = 5404319552844595 / 2 ^ 54 from by norm_num [dyVal, w03]] at e1
    rw [hP1def]
    refine le_trans e1 ?_
    rw [abs_of_nonneg (mul_nonneg hA0 (by norm_num)),
      div_le_div_iff (by positivity) (by positivity)]
    linarith
  have t2 : |dyVal P2 - (au:ℚ) * (3602879701896397 / 2 ^ 54)| ≤ 1 / 2 ^ 45 := by
    have e2 := dyMul_err ⟨au, 0⟩ w02
    rw [show dyVal (⟨au, 0⟩ : Dy) = (au:ℚ) from by simp [dyVal],
      show dyVal w02 = 3602879701896397 / 2 ^ 54 from by norm_num [dyVal, w02]] at e2
    rw [hP2def]
    refine le_trans e2 ?_
    rw [abs_of_nonneg (mul_nonneg hB0 (by norm_num)),
      div_le_div_iff (by positivity) (by positivity)]
    linarith
  have t3 : |dyVal P3 - (st:ℚ) * (5404319552844595 / 2 ^ 55)| ≤ 1 / 2 ^ 45 := by
    have e3 := dyMul_err ⟨st, 0⟩ w015
    rw [show dyVal (⟨st, 0⟩ : Dy) = (st:ℚ) from by simp [dyVal],
      show dyVal w015 = 5404319552844595 / 2 ^ 55 from by norm_num [dyVal, w015]] at e3
    rw [hP3def]
    refine le_trans e3 ?_
    rw [abs_of_nonneg (mul_nonneg hC0 (by norm_num)),
      div_le_div_iff (by positivity) (by positivity)]
    linarith
  have t4 : |dyVal P4 - (co:ℚ) * (1 / 4)| ≤ 1 / 2 ^ 45 := by
    have e4 := dyMul_err ⟨co, 0⟩ w025
    rw [show dyVal (⟨co, 0⟩ : Dy) = (co:ℚ) from by simp [dyVal],
      show dyVal w025 = 1 / 4 from by norm_num [dyVal, w025]] at e4
    rw [hP4def]
    refine le_trans e4 ?_
    rw [abs_of_nonneg (mul_nonneg hD0 (by norm_num)),
      div_le_div_iff (by positivity) (by positivity)]
    linarith
  have t5 : |dyVal P5 - (sa:ℚ) * (3602879701896397 / 2 ^ 55)| ≤ 1 / 2 ^ 45 := by
    have e5 := dyMul_err ⟨sa, 0⟩ w01
    rw [show dyVal (⟨sa, 0⟩ : Dy) = (sa:ℚ) from by simp [dyVal],
      show dyVal w01 = 3602879701896397 / 2 ^ 55 from by norm_num [dyVal, w01]] at e5
    rw [hP5def]
    refine le_trans e5 ?_
    rw [abs_of_nonneg (mul_nonneg hE0 (by norm_num)),
      div_le_div_iff (by positivity) (by positivity)]
    linarith
  rw [abs_le] at t1 t2 t3 t4 t5
  have k1 : |dyVal S1 - (dyVal P1 + dyVal P2)| ≤ 1 / 2 ^ 45 := by
    rw [hS1def]
    refine le_trans (dyAdd_err P1 P2) ?_
    have habs : |dyVal P1 + dyVal P2| ≤ 256 := by
      rw [abs_le]
      constructor <;> linarith [t1.1, t1.2, t2.1, t2.2]
    rw [div_le_div_iff (by positivity) (by positivity)]
    linarith [habs]
  rw [abs_le] at k1
  have k2 : |dyVal S2 - (dyVal S1 + dyVal P3)| ≤ 1 / 2 ^ 45 := by
    rw [hS2def]
    refine le_trans (dyAdd_err S1 P3) ?_
    have habs : |dyVal S1 + dyVal P3| ≤ 256 := by
      rw [abs_le]
      constructor <;> linarith [k1.1, k1.2, t1.1, t1.2, t2.1, t2.2, t3.1, t3.2]
    rw [div_le_div_iff (by positivity) (by positivity)]
    linarith [habs]
  rw [abs_le] at k2
  have k3 : |dyVal S3 - (dyVal S2 + dyVal P4)| ≤ 1 / 2 ^ 45 := by
    rw [hS3def]
    refine le_trans (dyAdd_err S2 P4) ?_
    have habs : |dyVal S2 + dyVal P4| ≤ 256 := by
      rw [abs_le]
      constructor <;>
        linarith [k1.1, k1.2, k2.1, k2.2, t1.1, t1.2, t2.1, t2.2, t3.1, t3.2, t4.1, t4.2]
    rw [div_le_div_iff (by positivity) (by positivity)]
    linarith [habs]
  rw [abs_le] at k3
  have k4 : |dyVal S4 - (dyVal S3 + dyVal P5)| ≤ 1 / 2 ^ 45 := by
    rw [hS4def]
    refine le_trans (dyAdd_err S3 P5) ?_
    have habs : |dyVal S3 + dyVal P5| ≤ 256 := by
      rw [abs_le]
      constructor <;>
        linarith [k1.1, k1.2, k2.1, k2.2, k3.1, k3.2, t1.1, t1.2, t2.1, t2.2, t3.1, t3.2,
          t4.1, t4.2, t5.1, t5.2]
    rw [div_le_div_iff (by positivity) (by positivity)]
    linarith [habs]
  rw [abs_le] at k4
  rw [abs_le]
  push_cast
  constructor <;>
    linarith [k1.1, k1.2, k2.1, k2.2, k3.1, k3.2, k4.1, k4.2, t1.1, t1.2, t2.1, t2.2,
      t3.1, t3.2, t4.1, t4.2, t5.1, t5.2]

theorem range_auth (c : Str) : inRange (scoreAuthoritativeness c) := clamp_range _

theorem range_trust (c : Str) : inRange (scoreTrustworthiness c) := clamp_range _

theorem range_prof (c : Str) : inRange (scoreProfessionalism c) := clamp_range _

theorem range_prot (c : Str) : inRange (scoreProtectiveness c) := clamp_range _

theorem range_age (c : Str) : inRange (scoreAgeAppropriateness c) := clamp_range _

theorem range_tone (c : Str) : inRange (scoreToneMatch c) := clamp_range _

theorem range_cx (c : Str) : inRange (scoreComplexityLevel c) := clamp_range _

theorem range_hier (c : Str) : inRange (scoreInformationHierarchy c) := clamp_range _

theorem range_read (c : Str) : inRange (scoreReadability c) := clamp_range _

theorem range_flow (c : Str) : inRange (scoreEducationalFlow c) := clamp_range _

theorem range_compliance (c : Str) : inRange (analyzeCompliance c).score := by
  unfold inRange analyzeCompliance
  dsimp only
  split_ifs <;> omega

theorem range_sales (c : Str) : inRange (analyzeSalesTactics c).score := by
  unfold inRange analyzeSalesTactics
  dsimp only
  split_ifs <;> omega

theorem roundRat_range {n : ℤ} {d : ℕ} (hd : 0 < d) (h0 : 0 ≤ n) (h1 : n ≤ 100 * d) :
    inRange (roundRat n d) := by
  rw [roundRat_eq n d hd]
  have hdq : (0 : ℚ) < (d : ℚ) := by positivity
  apply roundQ_range
  · apply div_nonneg _ (le_of_lt hdq)
    exact_mod_cast h0
  · rw [div_le_iff₀ hdq]
    have : ((n : ℤ) : ℚ) ≤ ((100 * d : ℤ) : ℚ) := by exact_mod_cast h1
    push_cast at this ⊢
    linarith

theorem range_bv (c : Str) : inRange (analyzeBrandVoice c).score := by
  have h1 := range_auth c
  have h2 := range_trust c
  have h3 := range_prof c
  have h4 := range_prot c
  unfold inRange at h1 h2 h3 h4
  exact roundRat_range (by norm_num) (by omega) (by omega)

theorem range_audience (c : Str) : inRange (analyzeAudienceAlignment c).score := by
  have h1 := range_age c
  have h2 := range_tone c
  have h3 := range_cx c
  unfold inRange at h1 h2 h3
  exact roundRat_range (by norm_num) (by omega) (by omega)

theorem range_structure (c : Str) : inRange (analyzeContentStructure c).score := by
  have h1 := range_hier c
  have h2 := range_read c
  have h3 := range_flow c
  unfold inRange at h1 h2 h3
  exact roundRat_range (by norm_num) (by omega) (by omega)

theorem overall_range {bv au st co sa : ℤ} (h1 : inRange bv) (h2 : inRange au)
    (h3 : inRange st) (h4 : inRange co) (h5 : inRange sa) :
    inRange (calculateOverallScore bv au st co sa) := by
  have hclose := jsWeightedSum_close bv au st co sa h1 h2 h3 h4 h5
  rw [abs_le] at hclose
  have hsum0 : (0:ℤ) ≤ 30 * bv + 20 * au + 15 * st + 25 * co + 10 * sa := by
    obtain ⟨a0, a1⟩ := h1
    obtain ⟨b0, b1⟩ := h2
    obtain ⟨c0, c1⟩ := h3
    obtain ⟨d0, d1⟩ := h4
    obtain ⟨e0, e1⟩ := h5
    omega
  have hsum1 : 30 * bv + 20 * au + 15 * st + 25 * co + 10 * sa ≤ (10000:ℤ) := by
    obtain ⟨a0, a1⟩ := h1
    obtain ⟨b0, b1⟩ := h2
    obtain ⟨c0, c1⟩ := h3
    obtain ⟨d0, d1⟩ := h4
    obtain ⟨e0, e1⟩ := h5
    omega
  have hq0 : (0:ℚ) ≤ ((30 * bv + 20 * au + 15 * st + 25 * co + 10 * sa : ℤ) : ℚ) / 100 := by
    apply div_nonneg _ (by norm_num)
    exact_mod_cast hsum0
  have hq1 : ((30 * bv + 20 * au + 15 * st + 25 * co + 10 * sa : ℤ) : ℚ) / 100 ≤ 100 := by
    rw [div_le_iff₀ (by norm_num)]
    have hc : ((30 * bv + 20 * au + 15 * st + 25 * co + 10 * sa : ℤ) : ℚ) ≤ 10000 := by
      exact_mod_cast hsum1
    linarith
  unfold calculateOverallScore
  rw [jsRound_eq]
  constructor
  · rw [Int.le_floor]
    push_cast
    linarith
  · have hle : ⌊dyVal (jsWeightedSum bv au st co sa) + 1/2⌋ ≤ ⌊(403/4 : ℚ)⌋ :=
      Int.floor_le_floor (by linarith)
    have h403 : ⌊(403/4 : ℚ)⌋ = 100 := by
      rw [Int.floor_eq_iff]
      norm_num
    omega

/-- C1: for every input string, every dimension sub-score, every composite
dimension score and the overall score of the audit lie in [0, 100]. -/
theorem C1_all_audit_scores_in_range (content : String) :
    inRange (auditContent content).brand_voice.knowledgeable_authoritative
    ∧ inRange (auditContent content).brand_voice.trustworthy_transparent
    ∧ inRange (auditContent content).brand_voice.professional_established
    ∧ inRange (auditContent content).brand_voice.protective_strategic
    ∧ inRange (auditContent content).audience_alignment.age_appropriate
    ∧ inRange (auditContent content).audience_alignment.tone_match
    ∧ inRange (auditContent content).audience_alignment.complexity_level
    ∧ inRange (auditContent content).content_structure.information_hierarchy
    ∧ inRange (auditContent content).content_structure.readability
    ∧ inRange (auditContent content).content_structure.educational_flow
    ∧ inRange (auditContent content).compliance_requirements.score
    ∧ inRange (auditContent content).sales_tactics.score
    ∧ inRange (auditContent content).brand_voice.score
    ∧ inRange (auditContent content).audience_alignment.score
    ∧ inRange (auditContent content).content_structure.score
    ∧ inRange (auditContent content).overall_score := by
  refine ⟨range_auth _, range_trust _, range_prof _, range_prot _,
    range_age _, range_tone _, range_cx _, range_hier _, range_read _, range_flow _,
    range_compliance _, range_sales _, range_bv _, range_audience _, range_structure _, ?_⟩
  exact overall_range (range_bv _) (range_audience _) (range_structure _)
    (range_compliance _) (range_sales _)

set_option maxRecDepth 16000 in
set_option maxHeartbeats 1000000 in
/-- C2 fails as stated: on this concrete input the audit's five dimension
scores are 75, 47, 63, 75 and 24, whose exact weighted sum 62.5 rounds half
up to 63, but the program's IEEE-double sum falls just below 62.5 and
Math.round returns 62. -/
theorem C2_counterexample :
    (auditContent c2orig).brand_voice.score = 75
    ∧ (auditContent c2orig).audience_alignment.score = 47
    ∧ (auditContent c2orig).content_structure.score = 63
    ∧ (auditContent c2orig).compliance_requirements.score = 75
    ∧ (auditContent c2orig).sales_tactics.score = 24
    ∧ (auditContent c2orig).overall_score = 62
    ∧ specOverallScore (auditContent c2orig) = 63
    ∧ (auditContent c2orig).overall_score ≠ specOverallScore (auditContent c2orig) := by
  have hbv : (auditContent c2orig).brand_voice.score = 75 := by decide
  have hau : (auditContent c2orig).audience_alignment.score = 47 := by decide
  have hst : (auditContent c2orig).content_structure.score = 63 := by decide
  have hco : (auditContent c2orig).compliance_requirements.score = 75 := by decide
  have hsa : (auditContent c2orig).sales_tactics.score = 24 := by decide
  have hov : (auditContent c2orig).overall_score = 62 := by decide
  have hspec : specOverallScore (auditContent c2orig) = 63 := by
    unfold specOverallScore
    rw [hbv, hau, hst, hco, hsa]
    have hval : ((75 : ℤ) : ℚ) * (3/10) + ((47 : ℤ) : ℚ) * (1/5) + ((63 : ℤ) : ℚ) * (3/20)
        + ((75 : ℤ) : ℚ) * (1/4) + ((24 : ℤ) : ℚ) * (1/10) = 125/2 := by norm_num
    rw [hval]
    unfold roundQ
    rw [Int.floor_eq_iff]
    norm_num
  refine ⟨hbv, hau, hst, hco, hsa, hov, hspec, ?_⟩
  rw [hov, hspec]
  decide

set_option maxHeartbeats 2000000 in
/-- C2, amended: the audit's overall score is Math.round of the IEEE-double
left-to-right weighted sum of the five dimension scores with weights
0.30 / 0.20 / 0.15 / 0.25 / 0.10 — within one of, but not always equal to,
the exact-rational half-up rounding of the weighted sum, as C2_counterexample
shows — and the compliance status follows the 80 / 60 thresholds and the
redesign priority the 40 / 60 / 75-or-disclaimers-absent rules. -/
theorem C2_amended_overall_status_priority (content : String) :
    (auditContent content).overall_score
      = jsRound (jsWeightedSum (auditContent content).brand_voice.score
          (auditContent content).audience_alignment.score
          (auditContent content).content_structure.score
          (auditContent content).compliance_requirements.score
          (auditContent content).sales_tactics.score)
    ∧ |(auditContent content).overall_score - specOverallScore (auditContent content)| ≤ 1
    ∧ (auditContent content).compliance_status
        = specStatusOf (auditContent content).overall_score
    ∧ (auditContent content).redesign_priority
        = specPriorityOf (auditContent content).overall_score
            (auditContent content).compliance_requirements.disclaimers_present := by
  refine ⟨rfl, ?_, rfl, priorityOf_eq _ _⟩
  have hclose := jsWeightedSum_close
    (analyzeBrandVoice content.data).score (analyzeAudienceAlignment content.data).score
    (analyzeContentStructure content.data).score (analyzeCompliance content.data).score
    (analyzeSalesTactics content.data).score
    (range_bv content.data) (range_audience content.data) (range_structure content.data)
    (range_compliance content.data) (range_sales content.data)
  have hov : (auditContent content).overall_score
      = ⌊dyVal (jsWeightedSum (analyzeBrandVoice content.data).score
          (analyzeAudienceAlignment content.data).score
          (analyzeContentStructure content.data).score
          (analyzeCompliance content.data).score
          (analyzeSalesTactics content.data).score) + 1 / 2⌋ := by
    show jsRound (jsWeightedSum _ _ _ _ _) = _
    rw [jsRound_eq]
  have hspec : specOverallScore (auditContent content)
      = ⌊((30 * (analyzeBrandVoice content.data).score
            + 20 * (analyzeAudienceAlignment content.data).score
            + 15 * (analyzeContentStructure content.data).score
            + 25 * (analyzeCompliance content.data).score
            + 10 * (analyzeSalesTactics content.data).score : ℤ) : ℚ) / 100 + 1 / 2⌋ := by
    show roundQ (((analyzeBrandVoice content.data).score : ℚ) * (3/10)
        + ((analyzeAudienceAlignment content.data).score : ℚ) * (1/5)
        + ((analyzeContentStructure content.data).score : ℚ) * (3/20)
        + ((analyzeCompliance content.data).score : ℚ) * (1/4)
        + ((analyzeSalesTactics content.data).score : ℚ) * (1/10)) = _
    unfold roundQ
    congr 1
    push_cast
    ring
  rw [hov, hspec]
  exact floor_close hclose

/-- C3: the sales-tactics score is 80 minus 15 per pressure tactic, 10 per
urgency term and 12 per aggressive term, minus 20 more when the trust/push
ratio is below 1, floored at 0; the ratio is trustCount / pushCount except
that a zero push count yields the trust count itself. -/
theorem C3_sales_tactics_formula (content : String) :
    (auditContent content).sales_tactics.score
      = max 0 (80 - 15 * ((findPressureTactics content.data).length : ℤ)
          - 10 * ((findUrgencyLanguage content.data).length : ℤ)
          - 12 * ((findAggressiveTerms content.data).length : ℤ)
          - (if calculateTrustVsPushRatio content.data < 1 then 20 else 0))
    ∧ (auditContent content).sales_tactics.trust_vs_push
        = calculateTrustVsPushRatio content.data
    ∧ calculateTrustVsPushRatio content.data
      = (if countCI (lowerStr content.data) pushRatioTerms = 0
         then (countCI (lowerStr content.data) trustRatioTerms : ℚ)
         else (countCI (lowerStr content.data) trustRatioTerms : ℚ)
            / (countCI (lowerStr content.data) pushRatioTerms : ℚ)) := by
  refine ⟨?_, rfl, ?_⟩
  · show (analyzeSalesTactics content.data).score = _
    unfold analyzeSalesTactics
    dsimp only
    simp only [decide_eq_true_eq]
    congr 1
    ring
  · simp only [calculateTrustVsPushRatio]
    split_ifs with h
    · rfl
    · rw [Rat.divInt_eq_div]
      push_cast
      ring

/-- C6 fails as stated on the sales-tactics dimension: on the empty string it
does not return its base value 80; the empty text's trust/push ratio is 0,
which triggers the below-1 penalty, so the score is 60. -/
theorem C6_counterexample :
    (analyzeSalesTactics ("").data).score = 60
    ∧ ¬ (analyzeSalesTactics ("").data).score = 80 := by
  constructor
  · decide
  · decide

/-- C6, amended: the audit of the empty string returns every marker-based
scorer's base value (50 / 50 / 70 / 50, 70 / 60 / 50, 50 / 60 / 50, 50) with
empty matched-marker lists, the three compliance flags false, and well-defined
issue lists; the sales-tactics score however is 60 (base 80 minus the 20
penalty for the empty text's trust/push ratio of 0), not its base value. -/
theorem C6_empty_audit_amended :
    (auditContent "").brand_voice.knowledgeable_authoritative = 50
    ∧ (auditContent "").brand_voice.trustworthy_transparent = 50
    ∧ (auditContent "").brand_voice.professional_established = 70
    ∧ (auditContent "").brand_voice.protective_strategic = 50
    ∧ (auditContent "").audience_alignment.age_appropriate = 70
    ∧ (auditContent "").audience_alignment.tone_match = 60
    ∧ (auditContent "").audience_alignment.complexity_level = 50
    ∧ (auditContent "").content_structure.information_hierarchy = 50
    ∧ (auditContent "").content_structure.readability = 60
    ∧ (auditContent "").content_structure.educational_flow = 50
    ∧ (auditContent "").compliance_requirements.score = 50
    ∧ (auditContent "").sales_tactics.score = 60
    ∧ (auditContent "").sales_tactics.pressure_tactics = []
    ∧ (auditContent "").sales_tactics.urgency_language = []
    ∧ (auditContent "").sales_tactics.aggressive_terms = []
    ∧ (auditContent "").sales_tactics.trust_vs_push = 0
    ∧ (auditContent "").compliance_requirements.disclaimers_present = false
    ∧ (auditContent "").compliance_requirements.risk_disclosures = false
    ∧ (auditContent "").compliance_requirements.educational_framing = false
    ∧ (auditContent "").brand_voice.issues
        = ["Lacks authoritative evidence and data",
           "Needs more transparency about risks and processes",
           "Too sales-focused, not protective enough"]
    ∧ (auditContent "").compliance_requirements.issues
        = ["Missing required financial disclaimers",
           "Content not properly framed as educational"]
    ∧ (auditContent "").overall_score = 55 := by
  decide

/-- C7: on the given input, the sales-tactics analysis flags the aggressive
term and both pressure tactics, and the score is strictly below 50. -/
theorem C7_scenario_guaranteed_returns :
    ("guaranteed returns" ∈
      (analyzeSalesTactics ("Guaranteed returns! Act now, don't miss out, buy now!").data).aggressive_terms)
    ∧ ("act now" ∈
      (analyzeSalesTactics ("Guaranteed returns! Act now, don't miss out, buy now!").data).pressure_tactics)
    ∧ ("don't miss out" ∈
      (analyzeSalesTactics ("Guaranteed returns! Act now, don't miss out, buy now!").data).pressure_tactics)
    ∧ (analyzeSalesTactics ("Guaranteed returns! Act now, don't miss out, buy now!").data).score < 50 := by
  refine ⟨by decide, by decide, by decide, by decide⟩

/-! Occurrence characterization of subIn, used to transport substring facts
through lower-casing. -/

theorem startsWithL_iff {p : Str} : ∀ {t : Str}, startsWithL t p = true ↔ ∃ r, t = p ++ r := by
  induction p with
  | nil => intro t; simp [startsWithL]
  | cons x xs ih =>
    intro t
    cases t with
    | nil => simp [startsWithL]
    | cons c cs =>
      simp only [startsWithL, Bool.and_eq_true, decide_eq_true_eq, ih, List.cons_append,
        List.cons.injEq]
      constructor
      · rintro ⟨hc, r, hr⟩
        exact ⟨r, hc, hr⟩
      · rintro ⟨r, hc, hr⟩
        exact ⟨hc, r, hr⟩

theorem subIn_iff {pat : Str} : ∀ {t : Str}, subIn pat t = true ↔ ∃ a b, t = a ++ pat ++ b := by
  intro t
  induction t with
  | nil =>
    simp only [subIn, List.isEmpty_iff]
    constructor
    · rintro rfl
      exact ⟨[], [], rfl⟩
    · rintro ⟨a, b, h⟩
      rcases List.append_eq_nil.mp h.symm with ⟨h1, h2⟩
      rcases List.append_eq_nil.mp h1 with ⟨_, h3⟩
      exact h3
  | cons c cs ih =>
    simp only [subIn, Bool.or_eq_true, startsWithL_iff, ih]
    constructor
    · rintro (⟨r, hr⟩ | ⟨a, b, hab⟩)
      · exact ⟨[], r, by simpa using hr⟩
      · exact ⟨c :: a, b, by simp [hab]⟩
    · rintro ⟨a, b, hab⟩
      cases a with
      | nil =>
        exact Or.inl ⟨b, by simpa using hab⟩
      | cons a0 as =>
        refine Or.inr ⟨as, b, ?_⟩
        simp only [List.cons_append, List.cons.injEq] at hab
        simpa using hab.2

theorem subIn_map {pat t : Str} (f : Char → Char) (h : subIn pat t = true) :
    subIn (pat.map f) (t.map f) = true := by
  rw [subIn_iff] at h ⊢
  obtain ⟨a, b, rfl⟩ := h
  exact ⟨a.map f, b.map f, by simp⟩

/-- C9: the age-appropriateness slang checks match raw substrings with no word
boundaries.  Whenever the content contains yo as a substring (also inside
ordinary words), validate_brand_compliance reports the demographic issue and
deducts 15 before the floor at 0, and the auditor counts yo among the matched
young terms so that the age-appropriateness sub-score loses 25 per matched
term before clamping. -/
theorem C9_yo_substring_matching (content : String)
    (h : subIn ("yo").data content.data = true) :
    "Language not appropriate for target demographic (45-75)"
        ∈ (validateBrandCompliance content).issues
    ∧ (validateBrandCompliance content).score = max 0 (vbcScorePreAge content - 15)
    ∧ "yo" ∈ matchedCI (lowerStr content.data) youngTerms
    ∧ scoreAgeAppropriateness content.data
        = clamp (70 - 25 * (countCI (lowerStr content.data) youngTerms : ℤ)
            + 8 * (countCI (lowerStr content.data) appropriateRefs : ℤ)) := by
  have hyo : subIn ("yo").data (lowerStr content.data) = true := by
    have h2 := subIn_map lowerChar h
    have e : ("yo").data.map lowerChar = ("yo").data := by decide
    rw [e] at h2
    exact h2
  refine ⟨?_, ?_, ?_, ?_⟩
  · simp [validateBrandCompliance, h, List.mem_append]
  · simp [validateBrandCompliance, h]
  · exact List.mem_filter.mpr ⟨by decide, hyo⟩
  · show clamp _ = _
    congr 1
    ring

/-- Witness for C9 at the concrete content string. -/
theorem C9_yo_substring_matching_witness :
    subIn ("yo").data ("Protect your wealth").data = true
    ∧ ("Language not appropriate for target demographic (45-75)"
        ∈ (validateBrandCompliance "Protect your wealth").issues
      ∧ (validateBrandCompliance "Protect your wealth").score
          = max 0 (vbcScorePreAge "Protect your wealth" - 15)
      ∧ "yo" ∈ matchedCI (lowerStr ("Protect your wealth").data) youngTerms
      ∧ scoreAgeAppropriateness ("Protect your wealth").data
          = clamp (70 - 25 * (countCI (lowerStr ("Protect your wealth").data) youngTerms : ℤ)
              + 8 * (countCI (lowerStr ("Protect your wealth").data) appropriateRefs : ℤ))) :=
  ⟨by decide, C9_yo_substring_matching "Protect your wealth" (by decide)⟩

/-! Character-level facts about the light redesign's whitespace clean-up. -/

theorem lenAux_eq (s : Str) : ∀ acc : ℕ, lenAux acc s = acc + s.length := by
  induction s with
  | nil => intro acc; simp [lenAux]
  | cons c cs ih =>
    intro acc
    rw [lenAux, ih]
    simp only [List.length_cons]
    omega

theorem collapseWsGo_mem :
    ∀ (fuel : ℕ) (s : Str), s.length ≤ fuel →
      ∀ ch ∈ collapseWsGo fuel s, ch = ' ' ∨ isWs ch = false := by
  intro fuel
  induction fuel with
  | zero =>
    intro s hs ch hch
    rw [List.length_eq_zero.mp (Nat.le_zero.mp hs)] at hch
    simp [collapseWsGo] at hch
  | succ n ih =>
    intro s hs ch hch
    cases s with
    | nil => simp [collapseWsGo] at hch
    | cons c cs =>
      rw [collapseWsGo] at hch
      by_cases hc : isWs c = true
      · rw [if_pos hc] at hch
        rcases List.mem_cons.mp hch with h | h
        · exact Or.inl h
        · have hsub := (List.dropWhile_sublist (l := cs) (fun d => isWs d)).length_le
          have hcs : cs.length ≤ n := by
            simp only [List.length_cons] at hs
            omega
          exact ih _ (le_trans hsub hcs) ch h
      · rw [if_neg hc] at hch
        rcases List.mem_cons.mp hch with h | h
        · refine Or.inr ?_
          rw [h]
          exact Bool.not_eq_true _ ▸ (by simpa using hc)
        · have hcs : cs.length ≤ n := by
            simp only [List.length_cons] at hs
            omega
          exact ih _ hcs ch h

theorem collapseWs_no_nl (s : Str) : '\n' ∉ collapseWs s := by
  intro h
  rcases collapseWsGo_mem (lenAux 0 s) s (by rw [lenAux_eq]; omega) '\n' h with h1 | h1
  · exact absurd h1 (by decide)
  · exact absurd h1 (by decide)

theorem replaceAllMGo_nl3_id :
    ∀ (fuel : ℕ) (s : Str), '\n' ∉ s →
      replaceAllMGo nl3Matcher (fun _ => ['\n', '\n']) fuel s = s := by
  intro fuel
  induction fuel with
  | zero => intro s _; rfl
  | succ n ih =>
    intro s h
    cases s with
    | nil => rfl
    | cons c cs =>
      have hc : ¬ c = '\n' := fun e => h (e ▸ List.mem_cons_self c cs)
      have hcs : '\n' ∉ cs := fun e => h (List.mem_cons_of_mem c e)
      have hm : nl3Matcher (c :: cs) = [] := by
        simp [nl3Matcher, mSeq, mLit, swMatch, startsWithL, hc]
      rw [replaceAllMGo, hm]
      simp only [List.head?_nil]
      rw [ih cs hcs]

theorem replace_nl3_id (s : Str) (h : '\n' ∉ s) :
    replaceAllM nl3Matcher (fun _ => ['\n', '\n']) s = s :=
  replaceAllMGo_nl3_id (lenAux 0 s) s h

theorem trimWs_no_nl {s : Str} (h : '\n' ∉ s) : '\n' ∉ trimWs s := by
  intro hmem
  apply h
  unfold trimWs at hmem
  rw [List.mem_reverse] at hmem
  have h1 := (List.dropWhile_sublist (fun c => isWs c)).mem hmem
  rw [List.mem_reverse] at h1
  exact (List.dropWhile_sublist (fun c => isWs c)).mem h1

/-- C10: the light redesign's output never contains a newline — the final
whitespace normalization collapses every whitespace run, including paragraph
breaks and the appended disclaimer's newlines, into single spaces.  The audit
argument is the one the pipeline passes (the original's audit); the result
holds for any audit value. -/
theorem C10_light_redesign_no_newline (orig : String) (audit : ContentAudit) :
    noNewlines (performLightRedesign orig audit).data = true := by
  unfold performLightRedesign noNewlines
  rw [List.all_eq_true]
  intro ch hch
  simp only [decide_eq_true_eq]
  intro he
  subst he
  revert hch
  show '\n' ∉ lightNormalize _
  unfold lightNormalize
  rw [replace_nl3_id _ (collapseWs_no_nl _)]
  exact trimWs_no_nl (collapseWs_no_nl _)

set_option maxRecDepth 40000 in
set_option maxHeartbeats 1000000 in
/-- C4 fails as stated: for the concrete original text c4orig, the original
audit reports disclaimers absent, the light redesign's audit reports them
present, and yet the redesigned compliance sub-score (75) is strictly below
the original's (95) — the redesign destroyed the risk-disclosure and
educational-framing markers that overlapped removed phrases. -/
theorem C4_counterexample :
    (auditContent c4orig).compliance_requirements.disclaimers_present = false
    ∧ (auditContent c4red).compliance_requirements.disclaimers_present = true
    ∧ (auditContent c4red).compliance_requirements.score
        < (auditContent c4orig).compliance_requirements.score := by
  refine ⟨by decide, by decide, by decide⟩

/-- C4, amended: whenever the original's audit reports disclaimers absent and
the redesigned text's audit reports them present, the redesigned compliance
sub-score is at least 75 and the original's is at most 95; the redesigned
score need not reach the original's. -/
theorem C4_amended_compliance_bounds (c1 c2 : Str)
    (h1 : (analyzeCompliance c1).disclaimers_present = false)
    (h2 : (analyzeCompliance c2).disclaimers_present = true) :
    75 ≤ (analyzeCompliance c2).score ∧ (analyzeCompliance c1).score ≤ 95 := by
  have e1 : checkDisclaimers c1 = false := h1
  have e2 : checkDisclaimers c2 = true := h2
  have hs2 : (analyzeCompliance c2).score
      = min 100 (50 + (if checkDisclaimers c2 then 25 else 0)
          + (if checkRiskDisclosures c2 then 20 else 0)
          + (if checkEducationalFraming c2 then 25 else 0)) := rfl
  have hs1 : (analyzeCompliance c1).score
      = min 100 (50 + (if checkDisclaimers c1 then 25 else 0)
          + (if checkRiskDisclosures c1 then 20 else 0)
          + (if checkEducationalFraming c1 then 25 else 0)) := rfl
  constructor
  · rw [hs2, e2]
    split_ifs <;> first | decide | (exfalso; simp_all)
  · rw [hs1, e1]
    split_ifs <;> first | decide | (exfalso; simp_all)

set_option maxRecDepth 40000 in
set_option maxHeartbeats 1000000 in
/-- Witness for the amended C4 at a concrete original and its actual light
redesign, which appends a disclaimer. -/
theorem C4_amended_compliance_bounds_witness :
    ((analyzeCompliance ("x").data).disclaimers_present = false
      ∧ (analyzeCompliance (performLightRedesign "x" (auditContent "x")).data).disclaimers_present
          = true)
    ∧ (75 ≤ (analyzeCompliance (performLightRedesign "x" (auditContent "x")).data).score
      ∧ (analyzeCompliance ("x").data).score ≤ 95) :=
  ⟨⟨by decide, by decide⟩,
    C4_amended_compliance_bounds ("x").data (performLightRedesign "x" (auditContent "x")).data
      (by decide) (by decide)⟩

/-! Character-membership lemmas: every character of a pipeline output comes
from the input or from one of the fixed replacement or template strings.
These let occurrence questions about the very large generated texts be
settled without evaluating them. -/

theorem subIn_mem {pat t : Str} (h : subIn pat t = true) {ch : Char} (hc : ch ∈ pat) :
    ch ∈ t := by
  rcases subIn_iff.mp h with ⟨a, b, rfl⟩
  simp [hc]

theorem mem_replaceAllMGo {m : Matcher} {tmpl : List (ℕ × Str) → Str} {ch : Char}
    (fuel : ℕ) : ∀ s : Str, ch ∈ replaceAllMGo m tmpl fuel s →
      ch ∈ s ∨ ∃ caps, ch ∈ tmpl caps := by
  induction fuel with
  | zero => exact fun s h => Or.inl h
  | succ fuel ih =>
    intro s h
    cases s with
    | nil => simp [replaceAllMGo] at h
    | cons c cs =>
      rw [replaceAllMGo] at h
      split at h
      · split at h
        · rcases List.mem_cons.mp h with rfl | h2
          · exact Or.inl (List.mem_cons_self _ _)
          · rcases ih cs h2 with h3 | h3
            · exact Or.inl (List.mem_cons_of_mem _ h3)
            · exact Or.inr h3
        · rcases List.mem_append.mp h with h2 | h2
          · exact Or.inr ⟨_, h2⟩
          · rcases ih _ h2 with h3 | h3
            · exact Or.inl (List.drop_subset _ _ h3)
            · exact Or.inr h3
      · rcases List.mem_cons.mp h with rfl | h2
        · exact Or.inl (List.mem_cons_self _ _)
        · rcases ih cs h2 with h3 | h3
          · exact Or.inl (List.mem_cons_of_mem _ h3)
          · exact Or.inr h3

theorem mem_replaceAllM {m : Matcher} {tmpl : List (ℕ × Str) → Str} {ch : Char} {s : Str}
    (h : ch ∈ replaceAllM m tmpl s) : ch ∈ s ∨ ∃ caps, ch ∈ tmpl caps :=
  mem_replaceAllMGo _ _ h

theorem mem_trimWs {s : Str} {ch : Char} (h : ch ∈ trimWs s) : ch ∈ s := by
  unfold trimWs at h
  rw [List.mem_reverse] at h
  have h2 := (List.dropWhile_sublist _).subset h
  rw [List.mem_reverse] at h2
  exact (List.dropWhile_sublist _).subset h2

theorem splitOnCharRec_ne_nil (sep : Char) : ∀ s : Str, splitOnCharRec sep s ≠ [] := by
  intro s
  induction s with
  | nil => simp [splitOnCharRec]
  | cons c cs ih =>
    rw [splitOnCharRec]
    rcases hr : splitOnCharRec sep cs with _ | ⟨p, ps⟩
    · exact absurd hr ih
    · simp only [hr]
      split <;> simp

theorem splitOnCharAux_eq (sep : Char) :
    ∀ (s cur : Str) (acc : List Str) (p : Str) (ps : List Str),
      splitOnCharRec sep s = p :: ps →
      splitOnCharAux sep cur acc s = acc.reverse ++ (cur.reverse ++ p) :: ps := by
  intro s
  induction s with
  | nil =>
    intro cur acc p ps hp
    rw [splitOnCharRec] at hp
    injection hp with h1 h2
    subst h1; subst h2
    simp [splitOnCharAux]
  | cons c cs ih =>
    intro cur acc p ps hp
    rcases hr : splitOnCharRec sep cs with _ | ⟨q, qs⟩
    · exact absurd hr (splitOnCharRec_ne_nil sep cs)
    · rw [splitOnCharRec] at hp
      simp only [hr] at hp
      by_cases hc : c = sep
      · rw [if_pos hc] at hp
        injection hp with h1 h2
        subst h1; subst h2
        rw [splitOnCharAux, if_pos hc, ih [] (cur.reverse :: acc) q qs hr]
        simp
      · rw [if_neg hc] at hp
        injection hp with h1 h2
        subst h1; subst h2
        rw [splitOnCharAux, if_neg hc, ih (c :: cur) acc q qs hr]
        simp

theorem splitOnChar_eq (sep : Char) (s : Str) : splitOnChar sep s = splitOnCharRec sep s := by
  rcases hr : splitOnCharRec sep s with _ | ⟨p, ps⟩
  · exact absurd hr (splitOnCharRec_ne_nil sep s)
  · rw [splitOnChar, splitOnCharAux_eq sep s [] [] p ps hr]
    simp

theorem mem_splitOnCharRec {sep ch : Char} :
    ∀ {s p : Str}, p ∈ splitOnCharRec sep s → ch ∈ p → ch ∈ s := by
  intro s
  induction s with
  | nil =>
    intro p hp hc
    rw [splitOnCharRec] at hp
    rcases List.mem_cons.mp hp with rfl | hp2
    · simp at hc
    · simp at hp2
  | cons c cs ih =>
    intro p hp hc
    rcases hr : splitOnCharRec sep cs with _ | ⟨q, qs⟩
    · exact absurd hr (splitOnCharRec_ne_nil sep cs)
    · rw [splitOnCharRec] at hp
      simp only [hr] at hp
      by_cases hcs : c = sep
      · rw [if_pos hcs] at hp
        rcases List.mem_cons.mp hp with rfl | hp2
        · simp at hc
        · exact List.mem_cons_of_mem _ (ih (p := p) (by rw [hr]; exact hp2) hc)
      · rw [if_neg hcs] at hp
        rcases List.mem_cons.mp hp with rfl | hp2
        · rcases List.mem_cons.mp hc with rfl | hc2
          · exact List.mem_cons_self _ _
          · exact List.mem_cons_of_mem _
              (ih (p := q) (by rw [hr]; exact List.mem_cons_self q qs) hc2)
        · exact List.mem_cons_of_mem _
            (ih (p := p) (by rw [hr]; exact List.mem_cons_of_mem _ hp2) hc)

theorem mem_joinSep {sep : Str} {ch : Char} :
    ∀ {parts : List Str}, ch ∈ joinSep sep parts → ch ∈ sep ∨ ∃ p ∈ parts, ch ∈ p := by
  intro parts
  induction parts with
  | nil => intro h; rw [joinSep] at h; simp at h
  | cons p ps ih =>
    intro h
    cases ps with
    | nil => exact Or.inr ⟨p, List.mem_cons_self _ _, h⟩
    | cons q qs =>
      rw [joinSep] at h
      rcases List.mem_append.mp h with h1 | h1
      · rcases List.mem_append.mp h1 with h2 | h2
        · exact Or.inr ⟨p, List.mem_cons_self _ _, h2⟩
        · exact Or.inl h2
      · rcases ih h1 with h2 | ⟨r, hr1, hr2⟩
        · exact Or.inl h2
        · exact Or.inr ⟨r, List.mem_cons_of_mem _ hr1, hr2⟩

theorem mem_insertStatistic {content stat : Str} {ch : Char}
    (h : ch ∈ insertStatistic content stat) :
    ch ∈ content ∨ ch ∈ stat ∨ ch = '.' ∨ ch = ' ' := by
  simp only [insertStatistic, splitOnChar_eq] at h
  split at h
  · rcases mem_joinSep h with hsep | ⟨p, hp, hcp⟩
    · right; right; left; simpa using hsep
    · rcases List.mem_append.mp hp with hp1 | hp1
      · exact Or.inl (mem_splitOnCharRec (List.take_subset _ _ hp1) hcp)
      · rcases List.mem_cons.mp hp1 with rfl | hp2
        · rcases List.mem_cons.mp hcp with rfl | hc2
          · right; right; right; rfl
          · right; left; exact hc2
        · exact Or.inl (mem_splitOnCharRec (List.drop_subset _ _ hp2) hcp)
  · rcases List.mem_append.mp h with h1 | h1
    · exact Or.inl h1
    · rcases List.mem_cons.mp h1 with rfl | h2
      · right; right; right; rfl
      · right; left; exact h2

theorem mem_statFold {ch : Char} :
    ∀ (l : List String) (e : Str),
      ch ∈ l.foldl
        (fun e stat => if subIn stat.data e then e else insertStatistic e stat.data) e →
      ch ∈ e ∨ (∃ st ∈ l, ch ∈ st.data) ∨ ch = '.' ∨ ch = ' ' := by
  intro l
  induction l with
  | nil => exact fun e h => Or.inl h
  | cons st sts ih =>
    intro e h
    rw [List.foldl_cons] at h
    rcases ih _ h with h1 | h1 | h1 | h1
    · by_cases hs : subIn st.data e = true
      · rw [if_pos hs] at h1; exact Or.inl h1
      · rw [if_neg hs] at h1
        rcases mem_insertStatistic h1 with h2 | h2 | h2 | h2
        · exact Or.inl h2
        · exact Or.inr (Or.inl ⟨st, List.mem_cons_self _ _, h2⟩)
        · exact Or.inr (Or.inr (Or.inl h2))
        · exact Or.inr (Or.inr (Or.inr h2))
    · rcases h1 with ⟨st2, hst2, hc⟩
      exact Or.inr (Or.inl ⟨st2, List.mem_cons_of_mem _ hst2, hc⟩)
    · exact Or.inr (Or.inr (Or.inl h1))
    · exact Or.inr (Or.inr (Or.inr h1))

theorem mem_weave_of_no_facts {content : Str} {ki : KeyInformation} {ch : Char}
    (hf : ki.facts = []) (h : ch ∈ weaveInKeyInformation content ki) :
    ch ∈ content ∨ (∃ st ∈ ki.statistics.take 3, ch ∈ st.data) ∨ ch = '.' ∨ ch = ' ' := by
  simp only [weaveInKeyInformation, hf, List.take_nil, List.foldl_nil] at h
  exact mem_statFold _ _ h

set_option maxRecDepth 8000 in
theorem mem_emailTemplate {topic : Str} {ch : Char} (h : ch ∈ emailTemplate topic) :
    ch ∈ topic ∨ ch ∈ emailTemplate [] := by
  unfold emailTemplate at h ⊢
  simp only [List.mem_append, List.append_nil, List.nil_append, List.not_mem_nil,
    false_or, or_false] at h ⊢
  tauto

theorem getBaseTemplate_email (topic : Str) :
    getBaseTemplate "email" topic = emailTemplate topic := by
  unfold getBaseTemplate
  rw [if_neg (by decide), if_pos rfl]

set_option maxRecDepth 16000 in
set_option maxHeartbeats 1000000 in
/-- C5 fails as stated: for the concrete original text c5orig, the complete
redesign with preservation enabled collects four statistics but weaves in only
the first three; the fourth collected statistic does not appear in the
regenerated text (so the claim's exception does not apply), yet it is absent
from the final output.  The proof tracks the character Q, which the fourth
statistic contains but which the generation pipeline and the statistic
insertions can never emit. -/
theorem C5_counterexample :
    "Quietly palladium added 25% more" ∈ (extractKeyInformation c5orig.data).statistics
    ∧ subIn ("Quietly palladium added 25% more").data
        (completeRegenerated c5orig.data c5req) = false
    ∧ subIn ("Quietly palladium added 25% more").data (completeRedesignOutput c5req) = false := by
  have hki : extractKeyInformation c5orig.data =
      { facts := []
        statistics := ["Gold rose 10% in 2020", "Silver gained 15% that year",
                       "Platinum fell 5% overall", "Quietly palladium added 25% more"]
        key_concepts := []
        company_specific := [] } := by decide
  have htheme : extractCoreTheme c5orig.data
      = ("Precious metals investment education").data := by decide
  have htrans : applyBrandVoiceTransformation (("Precious metals investment education").data)
      = ("Precious metals investment education").data := by decide
  have hgen : completeRegenerated c5orig.data c5req
      = addRequiredDisclaimers (applyTechnicalPolish (emailTemplate
          (enhanceEngagement (emailTemplate
            (emailTemplate (("Precious metals investment education").data)))))) := by
    show addRequiredDisclaimers (applyTechnicalPolish (getBaseTemplate "email"
        (enhanceEngagement (getBaseTemplate "email" (getBaseTemplate "email"
          (applyBrandVoiceTransformation (extractCoreTheme c5orig.data))))))) = _
    rw [htheme, htrans, getBaseTemplate_email, getBaseTemplate_email, getBaseTemplate_email]
  have hQtop : 'Q' ∉ ("Precious metals investment education").data := by decide
  have hQe : 'Q' ∉ emailTemplate [] := by decide
  have hQem : ∀ t : Str, 'Q' ∉ t → 'Q' ∉ emailTemplate t := by
    intro t ht h
    rcases mem_emailTemplate h with h1 | h1
    · exact ht h1
    · exact hQe h1
  have hQenh : ∀ t : Str, 'Q' ∉ t → 'Q' ∉ enhanceEngagement t := by
    intro t ht h
    unfold enhanceEngagement at h
    rcases mem_replaceAllM h with h1 | ⟨caps1, h1⟩
    · rcases mem_replaceAllM h1 with h2 | ⟨caps2, h2⟩
      · rcases mem_replaceAllM h2 with h3 | ⟨caps3, h3⟩
        · exact ht h3
        · exact absurd h3 (by decide)
      · exact absurd h2 (by decide)
    · exact absurd h1 (by decide)
  have hQpol : ∀ t : Str, 'Q' ∉ t → 'Q' ∉ applyTechnicalPolish t := by
    intro t ht h
    unfold applyTechnicalPolish at h
    rcases mem_replaceAllM (mem_trimWs h) with h1 | ⟨caps1, h1⟩
    · exact ht h1
    · exact absurd h1 (by decide)
  have hQdis : ∀ t : Str, 'Q' ∉ t → 'Q' ∉ addRequiredDisclaimers t := by
    intro t ht h
    simp only [addRequiredDisclaimers] at h
    rcases List.mem_append.mp h with h1 | h1
    · exact ht h1
    · split at h1
      · exact absurd h1 (by decide)
      · exact absurd h1 (by decide)
  have hQgen : 'Q' ∉ completeRegenerated c5orig.data c5req := by
    rw [hgen]
    exact hQdis _ (hQpol _ (hQem _ (hQenh _ (hQem _ (hQem _ hQtop)))))
  have hout : completeRedesignOutput c5req
      = weaveInKeyInformation (completeRegenerated c5orig.data c5req)
          (extractKeyInformation c5orig.data) := rfl
  have hQout : 'Q' ∉ completeRedesignOutput c5req := by
    rw [hout]
    intro h
    rcases mem_weave_of_no_facts (by rw [hki]) h with h1 | ⟨st, hst, hc⟩ | h1 | h1
    · exact hQgen h1
    · rw [hki] at hst
      simp [List.take] at hst
      rcases hst with rfl | rfl | rfl
      · exact absurd hc (by decide)
      · exact absurd hc (by decide)
      · exact absurd hc (by decide)
    · exact absurd h1 (by decide)
    · exact absurd h1 (by decide)
  refine ⟨by rw [hki]; decide, ?_, ?_⟩
  · rw [Bool.eq_false_iff]
    intro hb
    exact hQgen (subIn_mem hb (by decide))
  · rw [Bool.eq_false_iff]
    intro hb
    exact hQout (subIn_mem hb (by decide))

/-! Occurrence-preservation lemmas: a separator-free occurrence survives the
split-splice-rejoin performed by the statistic and fact insertions. -/

theorem subIn_nil_left (t : Str) : subIn [] t = true := by
  cases t with
  | nil => rfl
  | cons c cs => simp [subIn, startsWithL]

theorem subIn_of_startsWith {s p : Str} (h : startsWithL s p = true) : subIn p s = true := by
  cases s with
  | nil =>
    cases p with
    | nil => rfl
    | cons d ps => simp [startsWithL] at h
  | cons c cs => rw [subIn, h, Bool.true_or]

theorem subIn_append_right {p a : Str} (b : Str) (h : subIn p a = true) :
    subIn p (a ++ b) = true := by
  rcases subIn_iff.mp h with ⟨x, y, rfl⟩
  exact subIn_iff.mpr ⟨x, y ++ b, by simp⟩

theorem joinSep_piece_of_mem {sep : Str} :
    ∀ {parts : List Str} {q : Str}, q ∈ parts → ∃ x y, joinSep sep parts = x ++ q ++ y := by
  intro parts
  induction parts with
  | nil => intro q hq; simp at hq
  | cons p ps ih =>
    intro q hq
    cases ps with
    | nil =>
      rcases List.mem_cons.mp hq with rfl | hq2
      · exact ⟨[], [], by simp [joinSep]⟩
      · simp at hq2
    | cons r rs =>
      rcases List.mem_cons.mp hq with rfl | hq2
      · exact ⟨[], sep ++ joinSep sep (r :: rs), by rw [joinSep]; simp⟩
      · rcases ih hq2 with ⟨x, y, hxy⟩
        exact ⟨p ++ sep ++ x, y, by rw [joinSep, hxy]; simp⟩

theorem subIn_joinSep {sep p q : Str} {parts : List Str} (hq : q ∈ parts)
    (h : subIn p q = true) : subIn p (joinSep sep parts) = true := by
  rcases joinSep_piece_of_mem hq with ⟨x, y, hxy⟩
  rcases subIn_iff.mp h with ⟨a, b, rfl⟩
  exact subIn_iff.mpr ⟨x ++ a, b ++ y, by rw [hxy]; simp⟩

theorem splitOnCharRec_head_prefix {sep : Char} :
    ∀ {p s : Str}, sep ∉ p → startsWithL s p = true →
      ∃ q qs, splitOnCharRec sep s = q :: qs ∧ startsWithL q p = true := by
  intro p
  induction p with
  | nil =>
    intro s _ _
    rcases hr : splitOnCharRec sep s with _ | ⟨q, qs⟩
    · exact absurd hr (splitOnCharRec_ne_nil sep s)
    · exact ⟨q, qs, rfl, by cases q <;> rfl⟩
  | cons d p2 ih =>
    intro s hns hsw
    have hd : ¬ d = sep := fun hh => hns (by rw [← hh]; exact List.mem_cons_self _ _)
    cases s with
    | nil => simp [startsWithL] at hsw
    | cons c cs =>
      rw [startsWithL] at hsw
      simp only [Bool.and_eq_true, decide_eq_true_eq] at hsw
      obtain ⟨hc, hs2⟩ := hsw
      obtain ⟨q2, qs2, hrec, hq2⟩ := ih (fun hm => hns (List.mem_cons_of_mem _ hm)) hs2
      refine ⟨c :: q2, qs2, ?_, ?_⟩
      · rw [splitOnCharRec]
        simp only [hrec]
        rw [if_neg (fun hh => hd (hc.symm.trans hh))]
      · rw [startsWithL]
        simp [hc, hq2]

theorem subIn_splitOnCharRec {sep : Char} {p : Str} (hns : sep ∉ p) :
    ∀ {s : Str}, subIn p s = true → ∃ q ∈ splitOnCharRec sep s, subIn p q = true := by
  intro s
  induction s with
  | nil =>
    intro h
    rw [subIn] at h
    have hp : p = [] := by
      cases p with
      | nil => rfl
      | cons a b => simp at h
    subst hp
    exact ⟨[], by rw [splitOnCharRec]; exact List.mem_cons_self _ _, rfl⟩
  | cons c cs ih =>
    intro h
    rw [subIn] at h
    rw [Bool.or_eq_true] at h
    rcases h with hsw | hsub
    · obtain ⟨q, qs, hrec, hq⟩ := splitOnCharRec_head_prefix hns hsw
      exact ⟨q, by rw [hrec]; exact List.mem_cons_self _ _, subIn_of_startsWith hq⟩
    · obtain ⟨q, hqmem, hq⟩ := ih hsub
      rcases hr : splitOnCharRec sep cs with _ | ⟨q0, qs0⟩
      · exact absurd hr (splitOnCharRec_ne_nil sep cs)
      · rw [hr] at hqmem
        by_cases hc : c = sep
        · refine ⟨q, ?_, hq⟩
          rw [splitOnCharRec]
          simp only [hr]
          rw [if_pos hc]
          exact List.mem_cons_of_mem _ hqmem
        · rcases List.mem_cons.mp hqmem with rfl | hq2
          · refine ⟨c :: q, ?_, ?_⟩
            · rw [splitOnCharRec]
              simp only [hr]
              rw [if_neg hc]
              exact List.mem_cons_self _ _
            · rw [subIn, hq, Bool.or_true]
          · refine ⟨q, ?_, hq⟩
            rw [splitOnCharRec]
            simp only [hr]
            rw [if_neg hc]
            exact List.mem_cons_of_mem _ hq2

theorem splitOnCharRec_sep_not_mem {sep : Char} :
    ∀ {s p : Str}, p ∈ splitOnCharRec sep s → sep ∉ p := by
  intro s
  induction s with
  | nil =>
    intro p hp
    rw [splitOnCharRec] at hp
    rcases List.mem_cons.mp hp with rfl | h2
    · simp
    · simp at h2
  | cons c cs ih =>
    intro p hp
    rcases hr : splitOnCharRec sep cs with _ | ⟨q, qs⟩
    · exact absurd hr (splitOnCharRec_ne_nil sep cs)
    · rw [splitOnCharRec] at hp
      simp only [hr] at hp
      by_cases hc : c = sep
      · rw [if_pos hc] at hp
        rcases List.mem_cons.mp hp with rfl | hp2
        · simp
        · exact ih (by rw [hr]; exact hp2)
      · rw [if_neg hc] at hp
        rcases List.mem_cons.mp hp with rfl | hp2
        · intro hm
          rcases List.mem_cons.mp hm with hh | hh
          · exact hc hh.symm
          · exact ih (by rw [hr]; exact List.mem_cons_self _ _) hh
        · exact ih (by rw [hr]; exact List.mem_cons_of_mem _ hp2)

theorem insertStatistic_self (e stat : Str) : subIn stat (insertStatistic e stat) = true := by
  simp only [insertStatistic, splitOnChar_eq]
  split
  · refine subIn_joinSep (q := ' ' :: stat)
      (List.mem_append.mpr (Or.inr (List.mem_cons_self _ _))) ?_
    exact subIn_iff.mpr ⟨[' '], [], by simp⟩
  · exact subIn_iff.mpr ⟨e ++ [' '], [], by simp⟩

theorem insertStatistic_preserves {p e : Str} (hp : ('.' : Char) ∉ p) {st : Str}
    (h : subIn p e = true) : subIn p (insertStatistic e st) = true := by
  simp only [insertStatistic, splitOnChar_eq]
  split
  · obtain ⟨q, hqmem, hq⟩ := subIn_splitOnCharRec hp h
    refine subIn_joinSep ?_ hq
    have hq2 : q ∈ (splitOnCharRec '.' e).take 2 ++ (splitOnCharRec '.' e).drop 2 := by
      rw [List.take_append_drop]
      exact hqmem
    rcases List.mem_append.mp hq2 with h1 | h1
    · exact List.mem_append.mpr (Or.inl h1)
    · exact List.mem_append.mpr (Or.inr (List.mem_cons_of_mem _ h1))
  · exact subIn_append_right _ h

theorem statFold_preserves {p : Str} (hp : ('.' : Char) ∉ p) :
    ∀ (l : List String) (e : Str), subIn p e = true →
      subIn p (l.foldl
        (fun e stat => if subIn stat.data e then e else insertStatistic e stat.data) e) = true := by
  intro l
  induction l with
  | nil => exact fun e h => h
  | cons st sts ih =>
    intro e h
    rw [List.foldl_cons]
    apply ih
    split
    · exact h
    · exact insertStatistic_preserves hp h

theorem statFold_mem {p : String} (hp : ('.' : Char) ∉ p.data) :
    ∀ (l : List String) (e : Str), p ∈ l →
      subIn p.data (l.foldl
        (fun e stat => if subIn stat.data e then e else insertStatistic e stat.data) e) = true := by
  intro l
  induction l with
  | nil => intro e h; simp at h
  | cons st sts ih =>
    intro e hmem
    rw [List.foldl_cons]
    rcases List.mem_cons.mp hmem with rfl | h2
    · apply statFold_preserves hp
      split
      · assumption
      · exact insertStatistic_self _ _
    · exact ih _ h2

theorem splitOnNl2_ne_nil : ∀ s : Str, splitOnNl2 s ≠ [] := by
  intro s
  induction s using splitOnNl2.induct with
  | case1 => simp [splitOnNl2]
  | case2 cs ih => rw [splitOnNl2.eq_2]; simp
  | case3 c cs hne hnil ih => exact absurd hnil ih
  | case4 c cs hne q0 qs0 hrec ih =>
    rw [splitOnNl2.eq_3 c cs hne]
    simp only [hrec]
    simp

theorem splitOnNl2_head_prefix :
    ∀ {p s : Str}, ('\n' : Char) ∉ p → startsWithL s p = true →
      ∃ q qs, splitOnNl2 s = q :: qs ∧ startsWithL q p = true := by
  intro p
  induction p with
  | nil =>
    intro s _ _
    rcases hr : splitOnNl2 s with _ | ⟨q, qs⟩
    · exact absurd hr (splitOnNl2_ne_nil s)
    · exact ⟨q, qs, rfl, by cases q <;> rfl⟩
  | cons d p2 ih =>
    intro s hns hsw
    have hd : ¬ d = '\n' := fun hh => hns (by rw [← hh]; exact List.mem_cons_self _ _)
    cases s with
    | nil => simp [startsWithL] at hsw
    | cons c cs =>
      rw [startsWithL] at hsw
      simp only [Bool.and_eq_true, decide_eq_true_eq] at hsw
      obtain ⟨hc, hs2⟩ := hsw
      obtain ⟨q2, qs2, hrec, hq2⟩ := ih (fun hm => hns (List.mem_cons_of_mem _ hm)) hs2
      refine ⟨c :: q2, qs2, ?_, ?_⟩
      · rw [splitOnNl2.eq_3 c cs (fun cs1 hcn _ => hd (hc.symm.trans hcn))]
        simp only [hrec]
      · rw [startsWithL]
        simp [hc, hq2]

theorem subIn_splitOnNl2 {p : Str} (hns : ('\n' : Char) ∉ p) :
    ∀ s : Str, subIn p s = true → ∃ q ∈ splitOnNl2 s, subIn p q = true := by
  intro s
  induction s using splitOnNl2.induct with
  | case1 =>
    intro h
    rw [subIn] at h
    have hp : p = [] := by
      cases p with
      | nil => rfl
      | cons a b => simp at h
    subst hp
    exact ⟨[], by rw [splitOnNl2.eq_1]; exact List.mem_cons_self _ _, rfl⟩
  | case2 cs ih =>
    intro h
    rw [subIn] at h
    rw [Bool.or_eq_true] at h
    rcases h with hsw | h2
    · obtain ⟨q, qs, hrec, hq⟩ := splitOnNl2_head_prefix hns hsw
      exact ⟨q, by rw [hrec]; exact List.mem_cons_self _ _, subIn_of_startsWith hq⟩
    · rw [subIn] at h2
      rw [Bool.or_eq_true] at h2
      rcases h2 with hsw2 | h3
      · cases p with
        | nil =>
          rcases hr : splitOnNl2 (('\n' : Char) :: '\n' :: cs) with _ | ⟨q, qs⟩
          · exact absurd hr (splitOnNl2_ne_nil _)
          · exact ⟨q, List.mem_cons_self _ _, subIn_nil_left q⟩
        | cons d p2 =>
          rw [startsWithL] at hsw2
          simp only [Bool.and_eq_true, decide_eq_true_eq] at hsw2
          exact absurd (List.mem_cons.mpr (Or.inl hsw2.1)) hns
      · obtain ⟨q, hqmem, hq⟩ := ih h3
        rw [splitOnNl2.eq_2]
        exact ⟨q, List.mem_cons_of_mem _ hqmem, hq⟩
  | case3 c cs hne hnil ih => exact fun _ => absurd hnil (splitOnNl2_ne_nil cs)
  | case4 c cs hne q0 qs0 hrec ih =>
    intro h
    rw [subIn] at h
    rw [Bool.or_eq_true] at h
    rcases h with hsw | h2
    · obtain ⟨q, qs, hrec2, hq⟩ := splitOnNl2_head_prefix hns hsw
      exact ⟨q, by rw [hrec2]; exact List.mem_cons_self _ _, subIn_of_startsWith hq⟩
    · obtain ⟨q, hqmem, hq⟩ := ih h2
      rw [hrec] at hqmem
      rw [splitOnNl2.eq_3 c cs hne]
      simp only [hrec]
      rcases List.mem_cons.mp hqmem with rfl | hq2
      · refine ⟨c :: q, List.mem_cons_self _ _, ?_⟩
        rw [subIn, hq, Bool.or_true]
      · exact ⟨q, List.mem_cons_of_mem _ hq2, hq⟩

theorem insertFact_preserves {p e : Str} (hp : ('\n' : Char) ∉ p) {f : Str}
    (h : subIn p e = true) : subIn p (insertFact e f) = true := by
  simp only [insertFact]
  split
  · obtain ⟨q, hqmem, hq⟩ := subIn_splitOnNl2 hp e h
    refine subIn_joinSep ?_ hq
    have hq2 : q ∈ (splitOnNl2 e).take 1 ++ (splitOnNl2 e).drop 1 := by
      rw [List.take_append_drop]
      exact hqmem
    rcases List.mem_append.mp hq2 with h1 | h1
    · exact List.mem_append.mpr (Or.inl h1)
    · exact List.mem_append.mpr (Or.inr (List.mem_cons_of_mem _ h1))
  · exact subIn_append_right _ h

theorem factFold_preserves {p : Str} (hp : ('\n' : Char) ∉ p) :
    ∀ (l : List String) (e : Str), subIn p e = true →
      subIn p (l.foldl
        (fun e fact => if subIn fact.data e then e else insertFact e fact.data) e) = true := by
  intro l
  induction l with
  | nil => exact fun e h => h
  | cons f fs ih =>
    intro e h
    rw [List.foldl_cons]
    apply ih
    split
    · exact h
    · exact insertFact_preserves hp h

theorem extractStatistics_dot_free {content : Str} {stat : String}
    (h : stat ∈ extractStatistics content) : ('.' : Char) ∉ stat.data := by
  unfold extractStatistics at h
  have h2 := List.take_subset _ _ h
  rcases List.mem_map.mp h2 with ⟨l, hl, rfl⟩
  have h3 := (List.mem_filter.mp hl).1
  unfold trimmedSentences at h3
  have h4 := (List.mem_filter.mp h3).1
  rcases List.mem_map.mp h4 with ⟨l0, hl0, rfl⟩
  rw [splitOnChar_eq] at hl0
  intro hd
  exact splitOnCharRec_sep_not_mem hl0 (mem_trimWs hd)

/-- C5, amended: the weave step inserts only the first three collected
statistics; every statistic among the first three that contains no newline
character appears verbatim in the complete redesign's output, whether or not
it already appeared in the regenerated text.  Collected statistics beyond the
first three may be absent even when missing from the regenerated text, as
C5_counterexample shows. -/
theorem C5_amended_first_three_woven (orig : Str) (audit : ContentAudit)
    (req : RedesignRequest) (stat : String)
    (hmem : stat ∈ (extractKeyInformation orig).statistics.take 3)
    (hnl : ('\n' : Char) ∉ stat.data) :
    subIn stat.data
      (performCompleteRedesign orig audit req (some (extractKeyInformation orig))) = true := by
  have hdot : ('.' : Char) ∉ stat.data :=
    extractStatistics_dot_free (List.take_subset _ _ hmem)
  show subIn stat.data
      (weaveInKeyInformation (completeRegenerated orig req) (extractKeyInformation orig)) = true
  unfold weaveInKeyInformation
  exact factFold_preserves hnl _ _ (statFold_mem hdot _ _ hmem)

set_option maxRecDepth 16000 in
/-- Witness for the amended C5 at the concrete original text c5orig: its first
collected statistic is newline-free and appears in the complete redesign's
output. -/
theorem C5_amended_first_three_woven_witness :
    ("Gold rose 10% in 2020" ∈ (extractKeyInformation c5orig.data).statistics.take 3
      ∧ ('\n' : Char) ∉ ("Gold rose 10% in 2020").data)
    ∧ subIn ("Gold rose 10% in 2020").data
        (performCompleteRedesign c5orig.data (auditContent c5orig) c5req
          (some (extractKeyInformation c5orig.data))) = true :=
  ⟨⟨by decide, by decide⟩,
   C5_amended_first_three_woven c5orig.data (auditContent c5orig) c5req
     "Gold rose 10% in 2020" (by decide) (by decide)⟩

/-- The moderate redesign reads nothing of the request except the target
audience, so two requests agreeing there redesign identically. -/
theorem performModerateRedesign_congr (orig : Str) (audit : ContentAudit)
    (r1 r2 : RedesignRequest) (h : r1.target_audience = r2.target_audience)
    (keyInfo : Option KeyInformation) :
    performModerateRedesign orig audit r1 keyInfo
      = performModerateRedesign orig audit r2 keyInfo := by
  unfold performModerateRedesign
  rw [h]

/-- C8 fails as stated: the persona key toString is none of the four known
personas, yet the bracket lookup finds the inherited Object.prototype member,
which is truthy, so the || fallback is skipped and the caller does not
receive the security_seekers guidance entry. -/
theorem C8_counterexample :
    "toString" ∉ ["security_seekers", "growth_hunters", "legacy_builders", "crisis_reactors"]
    ∧ getPersonaGuidance "toString" = GuidanceResult.inherited "toString"
    ∧ getPersonaGuidance "toString" ≠ GuidanceResult.entry securitySeekersGuidance := by
  refine ⟨by decide, by decide, by decide⟩

/-- C8, amended: the unknown-intensity fallback holds unconditionally — every
redesign intensity outside light / moderate / complete makes performRedesign
behave exactly as with intensity moderate — and the unknown-persona fallback
holds for every key that is neither one of the four known personas nor the
name of an Object.prototype member; for prototype names such as toString the
bracket lookup instead returns the inherited truthy member, as
C8_counterexample shows. -/
theorem C8_amended_enum_fallbacks :
    (∀ p : String,
      p ∉ ["security_seekers", "growth_hunters", "legacy_builders", "crisis_reactors"] →
      p ∉ objectPrototypeKeys →
      getPersonaGuidance p = GuidanceResult.entry securitySeekersGuidance)
    ∧ (∀ (orig : Str) (audit : ContentAudit) (req : RedesignRequest)
         (keyInfo : Option KeyInformation) (v : String),
         v ∉ ["light", "moderate", "complete"] →
         performRedesign orig audit { req with redesign_intensity := some v } keyInfo
           = performRedesign orig audit
               { req with redesign_intensity := some "moderate" } keyInfo) := by
  constructor
  · intro p hp hproto
    have h1 : ¬ p = "security_seekers" := fun hh => hp (by rw [hh]; simp)
    have h2 : ¬ p = "growth_hunters" := fun hh => hp (by rw [hh]; simp)
    have h3 : ¬ p = "legacy_builders" := fun hh => hp (by rw [hh]; simp)
    have h4 : ¬ p = "crisis_reactors" := fun hh => hp (by rw [hh]; simp)
    unfold getPersonaGuidance
    rw [if_neg h1, if_neg h2, if_neg h3, if_neg h4, if_neg hproto]
  · intro orig audit req keyInfo v hv
    have h1 : ¬ v = "light" := fun hh => hv (by rw [hh]; simp)
    have h2 : ¬ v = "moderate" := fun hh => hv (by rw [hh]; simp)
    have h3 : ¬ v = "complete" := fun hh => hv (by rw [hh]; simp)
    unfold performRedesign
    simp only [Option.getD_some]
    rw [if_neg h1, if_neg h2, if_neg h3, if_neg (by decide : ¬ "moderate" = "light"),
      if_pos trivial]
    exact performModerateRedesign_congr _ _ _ _ rfl _

/-- Witness for the amended C8 at the concrete unknown persona key newcomers
(which is not a prototype member either) and the concrete unknown intensity
extreme. -/
theorem C8_amended_enum_fallbacks_witness :
    ("newcomers" ∉ ["security_seekers", "growth_hunters", "legacy_builders", "crisis_reactors"]
      ∧ "newcomers" ∉ objectPrototypeKeys
      ∧ getPersonaGuidance "newcomers" = GuidanceResult.entry securitySeekersGuidance)
    ∧ ("extreme" ∉ ["light", "moderate", "complete"]
      ∧ performRedesign ("x").data (auditContent "x")
          { original_content := "x", content_type := none, target_audience := none,
            preserve_key_information := false, redesign_intensity := some "extreme",
            specific_requirements := [] } none
        = performRedesign ("x").data (auditContent "x")
          { original_content := "x", content_type := none, target_audience := none,
            preserve_key_information := false, redesign_intensity := some "moderate",
            specific_requirements := [] } none) :=
  ⟨⟨by decide, by decide, C8_amended_enum_fallbacks.1 "newcomers" (by decide) (by decide)⟩,
   ⟨by decide,
    C8_amended_enum_fallbacks.2 ("x").data (auditContent "x")
      { original_content := "x", content_type := none, target_audience := none,
        preserve_key_information := false, redesign_intensity := some "moderate",
        specific_requirements := [] } none "extreme" (by decide)⟩⟩

end Liberty
